import Mathlib

/-!
Shallow embedding of `src/pyidr/study_parser.py`.

The Python module parses tab-delimited study description files.  Records
(`dict`s in Python) are embedded as functions `String → Option String`;
lines are `List String` (as returned by `readlines`, so they usually keep a
trailing newline); fallible code returns `Except StudyError`.  The Python
code raises bare `Exception` / `AssertionError` / `IndexError` / `KeyError`
/ `ValueError`; we distinguish them by raise site in `StudyError`.
-/

/-- Error kinds raised by the parser, one constructor per raise site. -/
inductive StudyError where
  | missingKey (key : String)
  | missingComponentSection (tpe : String) (index : Nat)
  | unmatchedName (name : String)
  | invalidIdentifier (field value : String)
  | mismatchedPublicationCount
  | noComponents
  | valueError
  | keyError
  | indexError
deriving DecidableEq

/-- A Python dict with string keys and string values, as a lookup function. -/
abbrev PyRec := String → Option String

/-- A publication record (Title / Author List / optional identifiers). -/
abbrev Pub := PyRec

/-- A component record: its string fields plus the study's Publications list
(the Python component dict holds the list under the key `Publications`). -/
abbrev Comp := PyRec × List Pub

def emptyRec : PyRec := fun _ => none

/-- Python `d[k] = v` on a dict, as a functional override. -/
def setR (d : PyRec) (k v : String) : PyRec := fun q => if q = k then some v else d q

/-- Python `d.update(e)`: keys of `e` win over keys of `d`. -/
def updateR (d e : PyRec) : PyRec := fun q =>
  match e q with
  | some v => some v
  | none => d q

/-- Python whitespace characters recognised by `str.rstrip()` / `str.strip()`. -/
def isPyWS (c : Char) : Bool :=
  c = ' ' || c = '\t' || c = '\n' || c = '\r' || c = '\x0b' || c = '\x0c'

/-- Python `str.rstrip()` on a character list. -/
def pyRstripL (cs : List Char) : List Char := (cs.reverse.dropWhile isPyWS).reverse

/-- Python `s.strip(chars)`: drop characters of `set` from both ends. -/
def pyStripL (set : List Char) (cs : List Char) : List Char :=
  ((cs.dropWhile set.contains).reverse.dropWhile set.contains).reverse

/-- Python `s.strip(chars)` on strings. -/
def pyStrip (set : List Char) (s : String) : String := String.mk (pyStripL set s.data)

/-- Python `s.split('\t')` (never empty; `"".split('\t') == [""]`). -/
def splitTabL (acc : List Char) : List Char → List String
  | [] => [String.mk acc.reverse]
  | c :: rest =>
    if c = '\t' then String.mk acc.reverse :: splitTabL [] rest
    else splitTabL (c :: acc) rest

/-- Python `s.split('\t')`. -/
def splitTab (s : String) : List String := splitTabL [] s.data

/-- Value of a digit run, `int` of a string of digits. -/
def digitsToNat (ds : List Char) : Nat := ds.foldl (fun n c => 10 * n + (c.toNat - 48)) 0

/-- Python `int(s)` (base 10): optional surrounding whitespace, optional sign,
then one or more digits; anything else raises `ValueError` (`none` here). -/
def pyInt (s : String) : Option Int :=
  let cs := (s.data.dropWhile isPyWS).reverse.dropWhile isPyWS |>.reverse
  match cs with
  | '-' :: rest =>
    if rest ≠ [] ∧ rest.all Char.isDigit then some (-(digitsToNat rest : Int)) else none
  | '+' :: rest =>
    if rest ≠ [] ∧ rest.all Char.isDigit then some (digitsToNat rest : Int) else none
  | rest =>
    if rest ≠ [] ∧ rest.all Char.isDigit then some (digitsToNat rest : Int) else none

/-!  Section extraction (`StudyParser.get_lines`).

The marker pattern is `re.compile("^%s Number\t(\d+)" % component_type)`:
a line matches iff it starts with `<type> Number<TAB>` followed by at least
one digit; the captured group is the maximal digit run.  -/

/-- Value captured by the marker regex `^<tpe> Number\t(\d+)` on a line
(`int(m.group(1))`), or `none` when the line is not a marker line. -/
def markerNum (tpe : String) (line : String) : Option Nat :=
  let pre := (tpe ++ " Number\t").data
  if pre.isPrefixOf line.data then
    let ds := (line.data.drop pre.length).takeWhile Char.isDigit
    if ds.isEmpty then none else some (digitsToNat ds)
  else none

/-- The loop body of `StudyParser.get_lines`: `found` and the accumulated
`lines` are the Python loop state. -/
def getLinesGo (tpe : String) (index : Nat) (found : Bool) (acc : List String) :
    List String → Except StudyError (List String)
  | [] =>
    if acc.isEmpty then .error (.missingComponentSection tpe index) else .ok acc
  | line :: rest =>
    match markerNum tpe line with
    | some v =>
      if v = index then getLinesGo tpe index true (acc ++ [line]) rest
      else if found then .ok acc
      else getLinesGo tpe index found acc rest
    | none =>
      if found then getLinesGo tpe index found (acc ++ [line]) rest
      else getLinesGo tpe index found acc rest

/-- `StudyParser.get_lines(index, component_type)` over the study lines. -/
def get_lines (tpe : String) (index : Nat) (studyLines : List String) :
    Except StudyError (List String) :=
  getLinesGo tpe index false [] studyLines

/-- Index of the first marker line of `tpe` whose number equals `index`. -/
def firstMarkerIdx (tpe : String) (index : Nat) : List String → Option Nat
  | [] => none
  | l :: ls =>
    if markerNum tpe l = some index then some 0
    else (firstMarkerIdx tpe index ls).map (· + 1)

/-- Section extraction as the specification words it: the result starts at the
first marker line whose number equals `index` (inclusive) and extends up to but
excluding the first subsequent marker of the same type whose number differs;
if the index never appears, a MissingComponentSection error.  This is the
spec-side description, to be compared with `get_lines`. -/
def getLinesSpec (tpe : String) (index : Nat) (lines : List String) :
    Except StudyError (List String) :=
  match firstMarkerIdx tpe index lines with
  | none => .error (.missingComponentSection tpe index)
  | some i =>
    .ok ((lines.drop i).takeWhile fun l =>
      match markerNum tpe l with
      | some v => v == index
      | none => true)

theorem getLinesGo_found (tpe : String) (index : Nat) :
    ∀ (rest acc : List String), acc ≠ [] →
      getLinesGo tpe index true acc rest =
        .ok (acc ++ rest.takeWhile fun l =>
          match markerNum tpe l with
          | some v => v == index
          | none => true) := by
  intro rest
  induction rest with
  | nil =>
    intro acc hacc
    simp [getLinesGo, List.isEmpty_iff, hacc]
  | cons line rest ih =>
    intro acc hacc
    rw [getLinesGo]
    split
    next v heq =>
      by_cases hv : v = index
      · rw [if_pos hv, ih (acc ++ [line]) (by simp)]
        simp [List.takeWhile_cons, heq, hv]
      · rw [if_neg hv, if_pos rfl]
        simp [List.takeWhile_cons, heq, hv]
    next heq =>
      rw [if_pos rfl, ih (acc ++ [line]) (by simp)]
      simp [List.takeWhile_cons, heq]

theorem getLinesGo_start (tpe : String) (index : Nat) :
    ∀ lines : List String,
      getLinesGo tpe index false [] lines = getLinesSpec tpe index lines := by
  intro lines
  induction lines with
  | nil => simp [getLinesGo, getLinesSpec, firstMarkerIdx]
  | cons line rest ih =>
    rw [getLinesGo]
    split
    next v heq =>
      by_cases hv : v = index
      · rw [if_pos hv]
        rw [getLinesGo_found tpe index rest ([] ++ [line]) (by simp)]
        subst hv
        simp [getLinesSpec, firstMarkerIdx, heq, List.takeWhile_cons]
      · rw [if_neg hv, if_neg (by simp), ih]
        have hne : ¬ markerNum tpe line = some index := by simp [heq, hv]
        simp only [getLinesSpec, firstMarkerIdx, if_neg hne]
        cases hidx : firstMarkerIdx tpe index rest with
        | none => simp
        | some i => simp [List.drop_succ_cons]
    next heq =>
      rw [if_neg (by simp), ih]
      have hne : ¬ markerNum tpe line = some index := by simp [heq]
      simp only [getLinesSpec, firstMarkerIdx, if_neg hne]
      cases hidx : firstMarkerIdx tpe index rest with
      | none => simp
      | some i => simp [List.drop_succ_cons]

/-- C3: for every requested type and index, section extraction returns the
lines starting at the first marker line `<type> Number\t<index>` (inclusive)
up to but excluding the first subsequent marker of the same type whose number
differs (markers repeating the same number do not stop accumulation), and
fails with a MissingComponentSection error when the index never appears;
in particular the two-section example splits as the claim states. -/
theorem c3_section_extraction :
    (∀ tpe index lines, get_lines tpe index lines = getLinesSpec tpe index lines)
    ∧ get_lines "Experiment" 1 ["Experiment Number\t1", "A", "Experiment Number\t2", "B"]
        = .ok ["Experiment Number\t1", "A"]
    ∧ get_lines "Experiment" 2 ["Experiment Number\t1", "A", "Experiment Number\t2", "B"]
        = .ok ["Experiment Number\t2", "B"] := by
  refine ⟨fun tpe index lines => getLinesGo_start tpe index lines, ?_, ?_⟩
  · rfl
  · rfl

/-!  Key-value extraction (`StudyParser.get_value`).

The pattern is `re.compile("^%s\t(%s)" % (key, expr))` with `expr` always
`".*"` at every call site.  Keys in the registry are pre-escaped regex
literals (`'Comment\[IDR Study Accession\]'`): as a regex, a backslash makes
the following character literal, so a line matches iff it starts with the
unescaped key followed by a tab.  `(.*)` captures everything after the tab up
to the first newline, and the Python code applies `.rstrip()` to the group. -/

/-- Interpret a pre-escaped key literal: a backslash escapes the following
character (the registry keys only escape `[` and `]`). -/
def unescapeKey : List Char → List Char
  | [] => []
  | '\\' :: c :: rest => c :: unescapeKey rest
  | c :: rest => c :: unescapeKey rest

/-- Whether the regex `^<key>\t(.*)` matches `line`. -/
def matchesKey (key line : String) : Bool :=
  (unescapeKey key.data ++ ['\t']).isPrefixOf line.data

/-- `m.group(1).rstrip()` for a line matched by `^<key>\t(.*)`: everything
after the tab up to the first newline, with trailing whitespace stripped. -/
def extractVal (key line : String) : String :=
  String.mk (pyRstripL ((line.data.drop (unescapeKey key.data ++ ['\t']).length).takeWhile
    (fun c => c ≠ '\n')))

/-- One iteration of the `get_value` loop on a single line. -/
def matchKV (key line : String) : Option String :=
  if matchesKey key line then some (extractVal key line) else none

/-- The `for line in lines` loop of `get_value`: value from the first
matching line. -/
def findValue (key : String) : List String → Option String
  | [] => none
  | l :: ls =>
    match matchKV key l with
    | some v => some v
    | none => findValue key ls

/-- Python `if not lines: lines = self._study_lines`: both `None` and an
empty list fall back to the whole file. -/
def effLines (selfLines : List String) (lines : Option (List String)) : List String :=
  match lines with
  | none => selfLines
  | some l => if l.isEmpty then selfLines else l

/-- `StudyParser.get_value(key, expr=".*", fail_on_missing, lines)`.
Returns the (possibly empty) captured value of the first matching line,
`none` when nothing matches and `fail_on_missing` is false, and a MissingKey
error when nothing matches and `fail_on_missing` is true. -/
def get_value (selfLines : List String) (key : String) (fail_on_missing : Bool)
    (lines : Option (List String)) : Except StudyError (Option String) :=
  match findValue key (effLines selfLines lines) with
  | some v => .ok (some v)
  | none => if fail_on_missing then .error (.missingKey key) else .ok none

/-!  Field extraction (`StudyParser.parse`). -/

/-- The mandatory-keys loop of `parse`: `d[key] = self.get_value(key, lines=lines)`.
With `fail_on_missing = true`, `get_value` never returns `ok none`, so the
`none` arm below is unreachable. -/
def parseMand (selfLines : List String) (lines : Option (List String)) :
    List String → PyRec → Except StudyError PyRec
  | [], d => .ok d
  | key :: ks, d =>
    match get_value selfLines key true lines with
    | .error e => .error e
    | .ok (some v) => parseMand selfLines lines ks (setR d key v)
    | .ok none => parseMand selfLines lines ks d

/-- The optional-keys loop of `parse`: the value is kept only when truthy
(`if value:`), i.e. present and non-empty. -/
def parseOpt (selfLines : List String) (lines : Option (List String)) :
    List String → PyRec → Except StudyError PyRec
  | [], d => .ok d
  | key :: ks, d =>
    match get_value selfLines key false lines with
    | .error e => .error e
    | .ok (some v) =>
      if v ≠ "" then parseOpt selfLines lines ks (setR d key v)
      else parseOpt selfLines lines ks d
    | .ok none => parseOpt selfLines lines ks d

/-- `StudyParser.parse(mandatory_keys, optional_keys, lines)`. -/
def parse (selfLines : List String) (mandatory_keys optional_keys : List String)
    (lines : Option (List String)) : Except StudyError PyRec := do
  let d ← parseMand selfLines lines mandatory_keys emptyRec
  parseOpt selfLines lines optional_keys d

theorem findValue_eq_find (key : String) :
    ∀ ls : List String,
      findValue key ls = (ls.find? (matchesKey key)).map (extractVal key) := by
  intro ls
  induction ls with
  | nil => simp [findValue]
  | cons l ls ih =>
    rw [findValue, List.find?]
    by_cases h : matchesKey key l
    · simp [matchKV, h]
    · simp only [Bool.not_eq_true] at h
      simp [matchKV, h, ih]

theorem get_value_false_eq (selfLines : List String) (key : String)
    (lines : Option (List String)) :
    get_value selfLines key false lines = .ok (findValue key (effLines selfLines lines)) := by
  unfold get_value
  cases h : findValue key (effLines selfLines lines) <;> simp

theorem get_value_true_some (selfLines : List String) (key : String)
    (lines : Option (List String)) (v : String)
    (h : findValue key (effLines selfLines lines) = some v) :
    get_value selfLines key true lines = .ok (some v) := by
  unfold get_value
  rw [h]

theorem get_value_true_none (selfLines : List String) (key : String)
    (lines : Option (List String))
    (h : findValue key (effLines selfLines lines) = none) :
    get_value selfLines key true lines = .error (.missingKey key) := by
  unfold get_value
  rw [h]
  rfl

/-- C5 (amended): `get_value` returns, from the first line that begins with
the key followed by a tab, everything after the tab up to the newline with
trailing whitespace stripped (Python `rstrip()`, not only the newline); later
matching lines never influence the result. -/
theorem c5_get_value_first_match :
    (∀ selfLines key fm lines,
      get_value selfLines key fm lines =
        match (effLines selfLines lines).find? (matchesKey key) with
        | some l => .ok (some (extractVal key l))
        | none => if fm then .error (.missingKey key) else .ok none)
    ∧ (∀ (key l : String) (ls ls' : List String), matchesKey key l = true →
        findValue key (l :: ls) = findValue key (l :: ls'))
    ∧ (∀ (key l : String) (ls : List String), matchesKey key l = true →
        findValue key (l :: ls) = some (extractVal key l)) := by
  refine ⟨?_, ?_, ?_⟩
  · intro selfLines key fm lines
    unfold get_value
    rw [findValue_eq_find]
    cases h : (effLines selfLines lines).find? (matchesKey key) <;> simp
  · intro key l ls ls' h
    rw [findValue, findValue]
    simp [matchKV, h]
  · intro key l ls h
    rw [findValue]
    simp [matchKV, h]

/-- Witness for C5: the first matching line wins, on a concrete duplicate. -/
theorem c5_witness :
    findValue "K" ["K\tv", "K\tw"] = findValue "K" ["K\tv"]
    ∧ findValue "K" ["K\tv"] = some (extractVal "K" "K\tv") := by
  refine ⟨c5_get_value_first_match.2.1 "K" "K\tv" ["K\tw"] [] (by decide),
    c5_get_value_first_match.2.2 "K" "K\tv" [] (by decide)⟩

/-- C5 counterexample: the claim says only the trailing newline is stripped,
but `rstrip()` also strips the trailing space: the stored value is `"val"`,
not `"val "`. -/
theorem c5_counterexample :
    get_value ["Study Title\tval \n"] "Study Title" true none = .ok (some "val")
    ∧ "val" ≠ "val " := by
  exact ⟨rfl, by decide⟩

theorem parseMand_empty_subset (sl : List String) :
    ∀ (ks : List String) (d : PyRec),
      parseMand sl (some []) ks d = parseMand sl none ks d := by
  intro ks
  induction ks with
  | nil => intro d; rfl
  | cons k ks ih =>
    intro d
    rw [parseMand, parseMand]
    have h : get_value sl k true (some []) = get_value sl k true none := rfl
    rw [h]
    cases get_value sl k true none with
    | error e => rfl
    | ok v =>
      cases v with
      | some v => exact ih _
      | none => exact ih _

theorem parseOpt_empty_subset (sl : List String) :
    ∀ (ks : List String) (d : PyRec),
      parseOpt sl (some []) ks d = parseOpt sl none ks d := by
  intro ks
  induction ks with
  | nil => intro d; rfl
  | cons k ks ih =>
    intro d
    rw [parseOpt, parseOpt]
    have h : get_value sl k false (some []) = get_value sl k false none := rfl
    rw [h]
    cases get_value sl k false none with
    | error e => rfl
    | ok v =>
      cases v with
      | some v =>
        show (if v ≠ "" then parseOpt sl (some []) ks (setR d k v)
              else parseOpt sl (some []) ks d) =
            (if v ≠ "" then parseOpt sl none ks (setR d k v)
              else parseOpt sl none ks d)
        by_cases hv : v ≠ ""
        · rw [if_pos hv, if_pos hv]
          exact ih _
        · rw [if_neg hv, if_neg hv]
          exact ih _
      | none => exact ih _

/-- C9: passing an empty list as the `lines` subset is treated identically to
passing no subset at all — `get_value` (and hence `parse`) falls back to the
whole study file's lines. -/
theorem c9_empty_subset_fallback :
    (∀ (selfLines : List String) (key : String) (fm : Bool),
      get_value selfLines key fm (some []) = get_value selfLines key fm none
      ∧ effLines selfLines (some []) = selfLines)
    ∧ (∀ (selfLines mand opt : List String),
      parse selfLines mand opt (some []) = parse selfLines mand opt none) := by
  constructor
  · intro selfLines key fm
    exact ⟨rfl, rfl⟩
  · intro selfLines mand opt
    unfold parse
    rw [parseMand_empty_subset]
    cases h : parseMand selfLines none mand emptyRec with
    | error e => rfl
    | ok d => exact parseOpt_empty_subset selfLines opt d

theorem parseMand_cons_some (sl : List String) (lines : Option (List String))
    (k : String) (ks : List String) (d : PyRec) (v : String)
    (h : findValue k (effLines sl lines) = some v) :
    parseMand sl lines (k :: ks) d = parseMand sl lines ks (setR d k v) := by
  rw [parseMand, get_value_true_some sl k lines v h]

theorem parseMand_cons_none (sl : List String) (lines : Option (List String))
    (k : String) (ks : List String) (d : PyRec)
    (h : findValue k (effLines sl lines) = none) :
    parseMand sl lines (k :: ks) d = .error (.missingKey k) := by
  rw [parseMand, get_value_true_none sl k lines h]

theorem parseOpt_cons (sl : List String) (lines : Option (List String))
    (k : String) (ks : List String) (d : PyRec) :
    parseOpt sl lines (k :: ks) d =
      match findValue k (effLines sl lines) with
      | some v => if v ≠ "" then parseOpt sl lines ks (setR d k v) else parseOpt sl lines ks d
      | none => parseOpt sl lines ks d := by
  rw [parseOpt, get_value_false_eq]
  cases h : findValue k (effLines sl lines) <;> rfl

theorem parseOpt_cons_none (sl : List String) (lines : Option (List String))
    (k : String) (ks : List String) (d : PyRec)
    (h : findValue k (effLines sl lines) = none) :
    parseOpt sl lines (k :: ks) d = parseOpt sl lines ks d := by
  rw [parseOpt_cons, h]

theorem parseOpt_cons_some_ne (sl : List String) (lines : Option (List String))
    (k : String) (ks : List String) (d : PyRec) (v : String)
    (h : findValue k (effLines sl lines) = some v) (hv : v ≠ "") :
    parseOpt sl lines (k :: ks) d = parseOpt sl lines ks (setR d k v) := by
  rw [parseOpt_cons, h]
  exact if_pos hv

theorem parseOpt_cons_some_eq (sl : List String) (lines : Option (List String))
    (k : String) (ks : List String) (d : PyRec) (v : String)
    (h : findValue k (effLines sl lines) = some v) (hv : ¬ v ≠ "") :
    parseOpt sl lines (k :: ks) d = parseOpt sl lines ks d := by
  rw [parseOpt_cons, h]
  exact if_neg hv

theorem parseOpt_ok (sl : List String) (lines : Option (List String)) :
    ∀ (ks : List String) (d : PyRec),
      ∃ d', parseOpt sl lines ks d = .ok d'
        ∧ ∀ q, d' q = d q ∨ d' q = findValue q (effLines sl lines) := by
  intro ks
  induction ks with
  | nil =>
    intro d
    exact ⟨d, rfl, fun q => Or.inl rfl⟩
  | cons k ks ih =>
    intro d
    cases h : findValue k (effLines sl lines) with
    | none =>
      rw [parseOpt_cons_none sl lines k ks d h]
      exact ih d
    | some v =>
      by_cases hv : v ≠ ""
      · rw [parseOpt_cons_some_ne sl lines k ks d v h hv]
        obtain ⟨d', hok, hpres⟩ := ih (setR d k v)
        refine ⟨d', hok, fun q => ?_⟩
        rcases hpres q with hq | hq
        · by_cases hqk : q = k
          · subst hqk
            right
            rw [hq, h]
            simp [setR]
          · left
            rw [hq]
            simp [setR, hqk]
        · right
          exact hq
      · rw [parseOpt_cons_some_eq sl lines k ks d v h hv]
        exact ih d

theorem parseMand_ok_props (sl : List String) (lines : Option (List String)) :
    ∀ (ks : List String) (d d' : PyRec), parseMand sl lines ks d = .ok d' →
      (∀ k ∈ ks, ∃ v, findValue k (effLines sl lines) = some v ∧ d' k = some v)
      ∧ (∀ q, d' q = d q ∨ d' q = findValue q (effLines sl lines)) := by
  intro ks
  induction ks with
  | nil =>
    intro d d' h
    rw [parseMand] at h
    cases h
    exact ⟨by simp, fun q => Or.inl rfl⟩
  | cons k ks ih =>
    intro d d' h
    cases hf : findValue k (effLines sl lines) with
    | none =>
      rw [parseMand_cons_none sl lines k ks d hf] at h
      cases h
    | some v =>
      rw [parseMand_cons_some sl lines k ks d v hf] at h
      obtain ⟨hmem, hpres⟩ := ih (setR d k v) d' h
      constructor
      · intro j hj
        rcases List.mem_cons.mp hj with hjk | hjk
        · subst hjk
          refine ⟨v, hf, ?_⟩
          rcases hpres j with hq | hq
          · rw [hq]
            simp [setR]
          · rw [hq, hf]
        · exact hmem j hjk
      · intro q
        rcases hpres q with hq | hq
        · by_cases hqk : q = k
          · subst hqk
            right
            rw [hq, hf]
            simp [setR]
          · left
            rw [hq]
            simp [setR, hqk]
        · right
          exact hq

theorem parseMand_err_props (sl : List String) (lines : Option (List String)) :
    ∀ (ks : List String) (d : PyRec) (e : StudyError),
      parseMand sl lines ks d = .error e →
        ∃ k ∈ ks, e = .missingKey k ∧ findValue k (effLines sl lines) = none := by
  intro ks
  induction ks with
  | nil =>
    intro d e h
    rw [parseMand] at h
    cases h
  | cons k ks ih =>
    intro d e h
    cases hf : findValue k (effLines sl lines) with
    | none =>
      rw [parseMand_cons_none sl lines k ks d hf] at h
      cases h
      exact ⟨k, List.mem_cons_self k ks, rfl, hf⟩
    | some v =>
      rw [parseMand_cons_some sl lines k ks d v hf] at h
      obtain ⟨j, hj, hje, hjf⟩ := ih (setR d k v) e h
      exact ⟨j, List.mem_cons_of_mem k hj, hje, hjf⟩

/-- C2 (amended): `parse` fails — with a MissingMandatoryKey error naming a
mandatory key — exactly when some mandatory key has no matching line in the
relevant line subset; in every successfully constructed record each mandatory
key is mapped to the (possibly empty) extracted value of its first matching
line.  (A present key with an empty value does *not* fail; see the
counterexample.) -/
theorem c2_parse_mandatory (selfLines mand opt : List String)
    (lines : Option (List String)) :
    ((∃ d, parse selfLines mand opt lines = .ok d) ↔
      ∀ k ∈ mand, (findValue k (effLines selfLines lines)).isSome = true)
    ∧ (∀ e, parse selfLines mand opt lines = .error e →
        ∃ k ∈ mand, e = .missingKey k ∧ findValue k (effLines selfLines lines) = none)
    ∧ (∀ d, parse selfLines mand opt lines = .ok d →
        ∀ k ∈ mand, d k = findValue k (effLines selfLines lines)) := by
  cases hm : parseMand selfLines lines mand emptyRec with
  | error e =>
    have hp : parse selfLines mand opt lines = .error e := by
      unfold parse
      rw [hm]
      rfl
    obtain ⟨k, hk, hke, hkf⟩ := parseMand_err_props selfLines lines mand emptyRec e hm
    refine ⟨?_, ?_, ?_⟩
    · constructor
      · intro ⟨d, hd⟩
        rw [hp] at hd
        cases hd
      · intro hall
        have := hall k hk
        rw [hkf] at this
        cases this
    · intro e' he'
      rw [hp] at he'
      cases he'
      exact ⟨k, hk, hke, hkf⟩
    · intro d hd
      rw [hp] at hd
      cases hd
  | ok d1 =>
    obtain ⟨d', hok, hpres⟩ := parseOpt_ok selfLines lines opt d1
    have hp : parse selfLines mand opt lines = .ok d' := by
      unfold parse
      rw [hm]
      exact hok
    obtain ⟨hmem, _⟩ := parseMand_ok_props selfLines lines mand emptyRec d1 hm
    refine ⟨?_, ?_, ?_⟩
    · constructor
      · intro _ k hk
        obtain ⟨v, hv, _⟩ := hmem k hk
        rw [hv]
        rfl
      · intro _
        exact ⟨d', hp⟩
    · intro e he
      rw [hp] at he
      cases he
    · intro d hd k hk
      rw [hp] at hd
      cases hd
      obtain ⟨v, hv, hdk⟩ := hmem k hk
      rcases hpres k with hq | hq
      · rw [hq, hdk, hv]
      · rw [hq]

/-- Witness for C2: on a study line with a present, non-empty mandatory value,
`parse` succeeds and maps the key to that value. -/
theorem c2_witness :
    (parse ["Study Title\tT\n"] ["Study Title"] [] none).isOk = true := by
  obtain ⟨d, hd⟩ :=
    (c2_parse_mandatory ["Study Title\tT\n"] ["Study Title"] [] none).1.mpr
      (by
        intro k hk
        rw [List.mem_singleton] at hk
        subst hk
        rfl)
  rw [hd]
  rfl

/-- C2 counterexample: a mandatory key whose line carries an *empty* value
does not resolve to a non-empty value, yet `parse` succeeds and stores the
empty string — refuting both halves of the claim at this input. -/
theorem c2_counterexample :
    (parse ["Study Title\t\n"] ["Study Title"] [] none).isOk = true
    ∧ (parse ["Study Title\t\n"] ["Study Title"] [] none).toOption.map
        (fun d => d "Study Title") = some (some "") := by
  exact ⟨rfl, rfl⟩

/-!  Publication reconciliation (`StudyParser.parse_publications` and the
nested `parse_ids`).

`re.match` anchors only at the *start*: `re.compile("\d+").match(s)` is
truthy iff `s` begins with a digit, `PMC\d+` iff `s` begins with `PMC` and a
digit, and `https?://(dx.)?doi.org/(.*)` iff `s` begins with the scheme and
a `doi.org/`-shaped segment where each regex `.` matches any character other
than a newline.  The raw entry (not the matched prefix) is stored. -/

/-- Python dict `d[k]` (raises `KeyError` when absent). -/
def getItem (d : PyRec) (k : String) : Except StudyError String :=
  match d k with
  | some v => .ok v
  | none => .error .keyError

/-- One publication record built from a title/author pair. -/
def mkPub (t a : String) : Pub := setR (setR emptyRec "Title" t) "Author List" a

/-- Truthiness of `re.compile("\d+").match(s)`. -/
def pubmedMatch (s : String) : Bool :=
  match s.data with
  | c :: _ => c.isDigit
  | [] => false

/-- Truthiness of `re.compile("PMC\d+").match(s)`. -/
def pmcMatch (s : String) : Bool :=
  match s.data with
  | 'P' :: 'M' :: 'C' :: c :: _ => c.isDigit
  | _ => false

/-- The `doi.org/` part of the DOI regex: literal `doi`, any non-newline
character (the unescaped `.`), then `org/`. -/
def doiCore (cs : List Char) : Bool :=
  match cs with
  | 'd' :: 'o' :: 'i' :: c :: 'o' :: 'r' :: 'g' :: '/' :: _ => c ≠ '\n'
  | _ => false

/-- The part after `https?://`: optional `dx` plus any non-newline character
(the group `(dx.)?`), then the `doi.org/` shape. -/
def doiAfterScheme (cs : List Char) : Bool :=
  doiCore cs ||
    match cs with
    | 'd' :: 'x' :: c :: rest => c ≠ '\n' && doiCore rest
    | _ => false

/-- Truthiness of `re.compile("https?://(dx.)?doi.org/(.*)").match(s)`. -/
def doiMatch (s : String) : Bool :=
  match s.data with
  | 'h' :: 't' :: 't' :: 'p' :: 's' :: ':' :: '/' :: '/' :: rest => doiAfterScheme rest
  | 'h' :: 't' :: 't' :: 'p' :: ':' :: '/' :: '/' :: rest => doiAfterScheme rest
  | _ => false

/-- The `for i in range(len(split_ids))` loop of `parse_ids`.  Python order:
empty entries are skipped, then the pattern is tried (failure raises the
Invalid-identifier error), then `publications[i][key2] = split_ids[i]`
(an out-of-range `i` raises `IndexError`). -/
def parseIdsGo (key2 : String) (pat : String → Bool) :
    List String → Nat → List Pub → Except StudyError (List Pub)
  | [], _, pubs => .ok pubs
  | v :: rest, i, pubs =>
    if v = "" then parseIdsGo key2 pat rest (i + 1) pubs
    else if pat v then
      if h : i < pubs.length then
        parseIdsGo key2 pat rest (i + 1) (pubs.set i (setR (pubs.get ⟨i, h⟩) key2 v))
      else .error .indexError
    else .error (.invalidIdentifier key2 v)

/-- `parse_ids(key, pattern)`: absent key is a no-op; otherwise split the
field on tabs and run the loop.  `key2 = key.strip("Study ")` strips the
characters of the set `{S,t,u,d,y,space}` from both ends. -/
def parse_ids (study : PyRec) (key : String) (pat : String → Bool)
    (pubs : List Pub) : Except StudyError (List Pub) :=
  match study key with
  | none => .ok pubs
  | some raw => parseIdsGo (pyStrip ("Study ".data) key) pat (splitTab raw) 0 pubs

/-- `StudyParser.parse_publications`: split titles and authors on tab, assert
equal lengths, build one record per index, then fill in the three optional
identifier lists. -/
def parse_publications (study : PyRec) : Except StudyError (List Pub) := do
  let titlesRaw ← getItem study "Study Publication Title"
  let authorsRaw ← getItem study "Study Author List"
  let titles := splitTab titlesRaw
  let authors := splitTab authorsRaw
  if titles.length = authors.length then do
    let pubs0 := List.zipWith mkPub titles authors
    let pubs1 ← parse_ids study "Study PubMed ID" pubmedMatch pubs0
    let pubs2 ← parse_ids study "Study PMC ID" pmcMatch pubs1
    let pubs3 ← parse_ids study "Study DOI" doiMatch pubs2
    return pubs3
  else .error .mismatchedPublicationCount

theorem get_set_self (l : List Pub) (i : Nat) (x : Pub)
    (h : i < (l.set i x).length) : (l.set i x).get ⟨i, h⟩ = x := by
  simp

theorem get_set_other (l : List Pub) (i m : Nat) (x : Pub) (hne : m ≠ i)
    (h : m < l.length) (h' : m < (l.set i x).length) :
    (l.set i x).get ⟨m, h'⟩ = l.get ⟨m, h⟩ := by
  simp [List.get_eq_getElem, List.getElem_set, Ne.symm hne]

theorem parseIdsGo_pres (key2 : String) (pat : String → Bool) :
    ∀ (ids : List String) (i : Nat) (pubs pubs' : List Pub),
      parseIdsGo key2 pat ids i pubs = .ok pubs' →
        pubs'.length = pubs.length
        ∧ ∀ m (hm : m < pubs.length) (hm' : m < pubs'.length) (q : String),
            (m < i ∨ q ≠ key2) →
            pubs'.get ⟨m, hm'⟩ q = pubs.get ⟨m, hm⟩ q := by
  intro ids
  induction ids with
  | nil =>
    intro i pubs pubs' h
    rw [parseIdsGo] at h
    cases h
    exact ⟨rfl, fun m hm hm' q _ => rfl⟩
  | cons v rest ih =>
    intro i pubs pubs' h
    rw [parseIdsGo] at h
    by_cases hv : v = ""
    · rw [if_pos hv] at h
      obtain ⟨hlen, hpres⟩ := ih (i + 1) pubs pubs' h
      exact ⟨hlen, fun m hm hm' q hc =>
        hpres m hm hm' q (hc.imp (fun hlt => Nat.lt_succ_of_lt hlt) id)⟩
    · rw [if_neg hv] at h
      by_cases hp : pat v = true
      · rw [if_pos hp] at h
        by_cases hi : i < pubs.length
        · rw [dif_pos hi] at h
          obtain ⟨hlen, hpres⟩ := ih (i + 1) _ pubs' h
          rw [List.length_set] at hlen
          refine ⟨hlen, fun m hm hm' q hc => ?_⟩
          have hm1 : m < (pubs.set i (setR (pubs.get ⟨i, hi⟩) key2 v)).length := by
            rw [List.length_set]
            exact hm
          rcases hc with hlt | hq
          · have := hpres m hm1 hm' q (Or.inl (Nat.lt_succ_of_lt hlt))
            rw [this, get_set_other pubs i m _ (Nat.ne_of_lt hlt) hm hm1]
          · have := hpres m hm1 hm' q (Or.inr hq)
            rw [this]
            by_cases hmi : m = i
            · subst hmi
              rw [get_set_self pubs m _ hm1]
              simp [setR, hq]
            · rw [get_set_other pubs i m _ hmi hm hm1]
        · rw [dif_neg hi] at h
          cases h
      · rw [if_neg hp] at h
        cases h

theorem parseIdsGo_values (key2 : String) (pat : String → Bool) :
    ∀ (ids : List String) (i : Nat) (pubs pubs' : List Pub),
      parseIdsGo key2 pat ids i pubs = .ok pubs' →
        ∀ j (hj : j < ids.length), ids.get ⟨j, hj⟩ ≠ "" →
          ∀ (hj' : i + j < pubs'.length),
            (pubs'.get ⟨i + j, hj'⟩) key2 = some (ids.get ⟨j, hj⟩) := by
  intro ids
  induction ids with
  | nil =>
    intro i pubs pubs' _ j hj
    exact absurd hj (by simp)
  | cons v rest ih =>
    intro i pubs pubs' h j hj hne hj'
    rw [parseIdsGo] at h
    by_cases hv : v = ""
    · rw [if_pos hv] at h
      cases j with
      | zero => exact absurd hv hne
      | succ j =>
        have hj2 : (i + 1) + j < pubs'.length := by omega
        have hidx : (⟨i + (j + 1), hj'⟩ : Fin pubs'.length) = ⟨(i + 1) + j, hj2⟩ := by
          simp only [Fin.mk.injEq]
          omega
        rw [hidx]
        exact ih (i + 1) pubs pubs' h j (Nat.lt_of_succ_lt_succ hj) hne hj2
    · rw [if_neg hv] at h
      by_cases hp : pat v = true
      · rw [if_pos hp] at h
        by_cases hi : i < pubs.length
        · rw [dif_pos hi] at h
          cases j with
          | zero =>
            have hi1 : i < (pubs.set i (setR (pubs.get ⟨i, hi⟩) key2 v)).length := by
              rw [List.length_set]
              exact hi
            obtain ⟨hlen, hpres⟩ := parseIdsGo_pres key2 pat rest (i + 1) _ pubs' h
            rw [List.length_set] at hlen
            have hi' : i < pubs'.length := by omega
            have hidx : (⟨i + 0, hj'⟩ : Fin pubs'.length) = ⟨i, hi'⟩ := by
              simp only [Fin.mk.injEq]
              omega
            rw [hidx, hpres i hi1 hi' key2 (Or.inl (Nat.lt_succ_self i)),
              get_set_self pubs i _ hi1]
            show (setR (pubs.get ⟨i, hi⟩) key2 v) key2 = some ((v :: rest).get ⟨0, hj⟩)
            simp [setR]
          | succ j =>
            have hj2 : (i + 1) + j < pubs'.length := by omega
            have hidx : (⟨i + (j + 1), hj'⟩ : Fin pubs'.length) = ⟨(i + 1) + j, hj2⟩ := by
              simp only [Fin.mk.injEq]
              omega
            rw [hidx]
            exact ih (i + 1) _ pubs' h j (Nat.lt_of_succ_lt_succ hj) hne hj2
        · rw [dif_neg hi] at h
          cases h
      · rw [if_neg hp] at h
        cases h

theorem parseIdsGo_ok_of (key2 : String) (pat : String → Bool) :
    ∀ (ids : List String) (i : Nat) (pubs : List Pub),
      (∀ j (hj : j < ids.length), ids.get ⟨j, hj⟩ ≠ "" →
        pat (ids.get ⟨j, hj⟩) = true ∧ i + j < pubs.length) →
      ∃ pubs', parseIdsGo key2 pat ids i pubs = .ok pubs' := by
  intro ids
  induction ids with
  | nil =>
    intro i pubs _
    exact ⟨pubs, rfl⟩
  | cons v rest ih =>
    intro i pubs hall
    rw [parseIdsGo]
    by_cases hv : v = ""
    · rw [if_pos hv]
      exact ih (i + 1) pubs fun j hj hne =>
        ⟨(hall (j + 1) (Nat.succ_lt_succ hj) hne).1,
          by have := (hall (j + 1) (Nat.succ_lt_succ hj) hne).2; omega⟩
    · have h0 := hall 0 (by simp) hv
      have hp0 : pat v = true := h0.1
      have hl0 : i < pubs.length := by
        have := h0.2
        omega
      rw [if_neg hv, if_pos hp0, dif_pos hl0]
      exact ih (i + 1) _ fun j hj hne =>
        ⟨(hall (j + 1) (Nat.succ_lt_succ hj) hne).1,
          by
            have := (hall (j + 1) (Nat.succ_lt_succ hj) hne).2
            rw [List.length_set]
            omega⟩

theorem parseIdsGo_no_index_error (key2 : String) (pat : String → Bool) :
    ∀ (ids : List String) (i : Nat) (pubs : List Pub),
      (∀ j (hj : j < ids.length), ids.get ⟨j, hj⟩ ≠ "" → i + j < pubs.length) →
      parseIdsGo key2 pat ids i pubs ≠ .error .indexError := by
  intro ids
  induction ids with
  | nil =>
    intro i pubs _ h
    rw [parseIdsGo] at h
    cases h
  | cons v rest ih =>
    intro i pubs hall h
    rw [parseIdsGo] at h
    by_cases hv : v = ""
    · rw [if_pos hv] at h
      exact ih (i + 1) pubs
        (fun j hj hne => by
          have := hall (j + 1) (Nat.succ_lt_succ hj) hne
          omega) h
    · rw [if_neg hv] at h
      by_cases hp : pat v = true
      · rw [if_pos hp] at h
        have h0 := hall 0 (by simp) hv
        have hl0 : i < pubs.length := by
          have := h0
          omega
        rw [dif_pos hl0] at h
        exact ih (i + 1) _
          (fun j hj hne => by
            have := hall (j + 1) (Nat.succ_lt_succ hj) hne
            rw [List.length_set]
            omega) h
      · rw [if_neg hp] at h
        cases h
  
theorem parseIdsGo_first_invalid (key2 : String) (pat : String → Bool) :
    ∀ (ids : List String) (i : Nat) (pubs : List Pub) (j : Nat) (hj : j < ids.length),
      ids.get ⟨j, hj⟩ ≠ "" → pat (ids.get ⟨j, hj⟩) = false →
      (∀ m (hm : m < ids.length), m < j →
        (ids.get ⟨m, hm⟩ = "" ∨ (pat (ids.get ⟨m, hm⟩) = true ∧ i + m < pubs.length))) →
      parseIdsGo key2 pat ids i pubs = .error (.invalidIdentifier key2 (ids.get ⟨j, hj⟩)) := by
  intro ids
  induction ids with
  | nil =>
    intro i pubs j hj
    exact absurd hj (by simp)
  | cons v rest ih =>
    intro i pubs j hj hne hpat hbefore
    rw [parseIdsGo]
    cases j with
    | zero =>
      have hne0 : v ≠ "" := hne
      have hp0 : pat v = false := hpat
      rw [if_neg hne0, hp0]
      rfl
    | succ j =>
      by_cases hv : v = ""
      · rw [if_pos hv]
        exact ih (i + 1) pubs j (Nat.lt_of_succ_lt_succ hj) hne hpat
          (fun m hm hmj => by
            have := hbefore (m + 1) (Nat.succ_lt_succ hm) (Nat.succ_lt_succ hmj)
            rcases this with hemp | ⟨hp, hlt⟩
            · exact Or.inl hemp
            · exact Or.inr ⟨hp, by omega⟩)
      · have h0 := hbefore 0 (by simp) (Nat.succ_pos j)
        rcases h0 with hemp | ⟨hp, hlt⟩
        · exact absurd hemp hv
        · have hp0 : pat v = true := hp
          have hl0 : i < pubs.length := by
            have := hlt
            omega
          rw [if_neg hv, if_pos hp0, dif_pos hl0]
          exact ih (i + 1) _ j (Nat.lt_of_succ_lt_succ hj) hne hpat
            (fun m hm hmj => by
              have := hbefore (m + 1) (Nat.succ_lt_succ hm) (Nat.succ_lt_succ hmj)
              rcases this with hemp | ⟨hp2, hlt2⟩
              · exact Or.inl hemp
              · refine Or.inr ⟨hp2, ?_⟩
                rw [List.length_set]
                omega)

theorem parse_ids_eq_go (study : PyRec) (key : String) (pat : String → Bool)
    (pubs : List Pub) (raw : String) (h : study key = some raw) :
    parse_ids study key pat pubs =
      parseIdsGo (pyStrip ("Study ".data) key) pat (splitTab raw) 0 pubs := by
  rw [parse_ids, h]

theorem parse_ids_absent (study : PyRec) (key : String) (pat : String → Bool)
    (pubs : List Pub) (h : study key = none) :
    parse_ids study key pat pubs = .ok pubs := by
  rw [parse_ids, h]

theorem parseIdsGo_error_kinds (key2 : String) (pat : String → Bool) :
    ∀ (ids : List String) (i : Nat) (pubs : List Pub) (e : StudyError),
      parseIdsGo key2 pat ids i pubs = .error e →
        e = .indexError ∨ ∃ f v, e = .invalidIdentifier f v := by
  intro ids
  induction ids with
  | nil =>
    intro i pubs e h
    rw [parseIdsGo] at h
    cases h
  | cons v rest ih =>
    intro i pubs e h
    rw [parseIdsGo] at h
    by_cases hv : v = ""
    · rw [if_pos hv] at h
      exact ih (i + 1) pubs e h
    · rw [if_neg hv] at h
      by_cases hp : pat v = true
      · rw [if_pos hp] at h
        by_cases hi : i < pubs.length
        · rw [dif_pos hi] at h
          exact ih (i + 1) _ e h
        · rw [dif_neg hi] at h
          cases h
          exact Or.inl rfl
      · rw [if_neg hp] at h
        cases h
        exact Or.inr ⟨key2, v, rfl⟩

theorem parse_ids_error_kinds (study : PyRec) (key : String) (pat : String → Bool)
    (pubs : List Pub) (e : StudyError) (h : parse_ids study key pat pubs = .error e) :
    e = .indexError ∨ ∃ f v, e = .invalidIdentifier f v := by
  cases hk : study key with
  | none =>
    rw [parse_ids_absent study key pat pubs hk] at h
    cases h
  | some raw =>
    rw [parse_ids_eq_go study key pat pubs raw hk] at h
    exact parseIdsGo_error_kinds _ pat (splitTab raw) 0 pubs e h

theorem parse_ids_preserves (study : PyRec) (key : String) (pat : String → Bool)
    (pubs pubs' : List Pub) (h : parse_ids study key pat pubs = .ok pubs') :
    pubs'.length = pubs.length
    ∧ ∀ m (hm : m < pubs.length) (hm' : m < pubs'.length) (q : String),
        q ≠ pyStrip ("Study ".data) key →
        pubs'.get ⟨m, hm'⟩ q = pubs.get ⟨m, hm⟩ q := by
  cases hk : study key with
  | none =>
    rw [parse_ids_absent study key pat pubs hk] at h
    cases h
    exact ⟨rfl, fun m hm hm' q _ => rfl⟩
  | some raw =>
    rw [parse_ids_eq_go study key pat pubs raw hk] at h
    obtain ⟨hlen, hpres⟩ := parseIdsGo_pres _ pat (splitTab raw) 0 pubs pubs' h
    exact ⟨hlen, fun m hm hm' q hq => hpres m hm hm' q (Or.inr hq)⟩

/-- C4 (amended): for each optional identifier field, a non-empty
tab-separated entry is accepted iff its type-specific pattern matches at the
*start* of the entry (Python `re.match` is a prefix match, so e.g. `12a`
passes the PubMed pattern `\d+`); an accepted entry is stored unchanged on
the publication at the same index under the stripped label (`PubMed ID`,
`PMC ID`, `DOI`), and the first failing entry aborts with an
InvalidIdentifierFormat error naming the stripped field and the raw value. -/
theorem c4_identifier_validation :
    (∀ (key : String) (pat : String → Bool) (study : PyRec) (raw : String) (pubs : List Pub),
      study key = some raw →
      ((∀ j (hj : j < (splitTab raw).length), (splitTab raw).get ⟨j, hj⟩ ≠ "" →
          pat ((splitTab raw).get ⟨j, hj⟩) = true ∧ j < pubs.length) →
        ∃ pubs', parse_ids study key pat pubs = .ok pubs'
          ∧ pubs'.length = pubs.length
          ∧ ∀ j (hj : j < (splitTab raw).length), (splitTab raw).get ⟨j, hj⟩ ≠ "" →
              ∀ (hj' : j < pubs'.length),
                (pubs'.get ⟨j, hj'⟩) (pyStrip ("Study ".data) key)
                  = some ((splitTab raw).get ⟨j, hj⟩))
      ∧ (∀ j (hj : j < (splitTab raw).length), (splitTab raw).get ⟨j, hj⟩ ≠ "" →
          pat ((splitTab raw).get ⟨j, hj⟩) = false →
          (∀ m (hm : m < (splitTab raw).length), m < j →
            ((splitTab raw).get ⟨m, hm⟩ = "" ∨
              (pat ((splitTab raw).get ⟨m, hm⟩) = true ∧ m < pubs.length))) →
          parse_ids study key pat pubs =
            .error (.invalidIdentifier (pyStrip ("Study ".data) key)
              ((splitTab raw).get ⟨j, hj⟩))))
    ∧ pyStrip ("Study ".data) "Study PubMed ID" = "PubMed ID"
    ∧ pyStrip ("Study ".data) "Study PMC ID" = "PMC ID"
    ∧ pyStrip ("Study ".data) "Study DOI" = "DOI" := by
  refine ⟨?_, rfl, rfl, rfl⟩
  intro key pat study raw pubs h
  constructor
  · intro hall
    obtain ⟨pubs', hok⟩ := parseIdsGo_ok_of (pyStrip ("Study ".data) key) pat
      (splitTab raw) 0 pubs
      (fun j hj hne => ⟨(hall j hj hne).1, by
        have := (hall j hj hne).2
        omega⟩)
    refine ⟨pubs', by rw [parse_ids_eq_go study key pat pubs raw h]; exact hok,
      (parseIdsGo_pres _ pat (splitTab raw) 0 pubs pubs' hok).1, ?_⟩
    intro j hj hne hj'
    have hj0 : 0 + j < pubs'.length := by omega
    have hval := parseIdsGo_values _ pat (splitTab raw) 0 pubs pubs' hok j hj hne hj0
    have hidx : (⟨j, hj'⟩ : Fin pubs'.length) = ⟨0 + j, hj0⟩ := by
      simp only [Fin.mk.injEq]
      omega
    rw [hidx]
    exact hval
  · intro j hj hne hpat hbefore
    rw [parse_ids_eq_go study key pat pubs raw h]
    exact parseIdsGo_first_invalid _ pat (splitTab raw) 0 pubs j hj hne hpat
      (fun m hm hmj => (hbefore m hm hmj).imp id (fun hx => ⟨hx.1, by
        have := hx.2
        omega⟩))

/-- Concrete study used by the C4 witness. -/
def c4Study : PyRec := fun q => if q = "Study PubMed ID" then some "123" else none

/-- Witness for C4: a valid all-digit PubMed entry is accepted and stored. -/
theorem c4_witness :
    (parse_ids c4Study "Study PubMed ID" pubmedMatch [mkPub "T" "A"]).isOk = true := by
  obtain ⟨pubs', hok, _, _⟩ :=
    (c4_identifier_validation.1 "Study PubMed ID" pubmedMatch c4Study "123"
      [mkPub "T" "A"] rfl).1
      (by
        intro j hj hne
        have hlen : (splitTab "123").length = 1 := rfl
        rw [hlen] at hj
        interval_cases j
        exact ⟨rfl, by decide⟩)
  rw [hok]
  rfl

/-- Concrete study used by the C4 counterexample. -/
def c4StudyBad : PyRec := fun q => if q = "Study PubMed ID" then some "12a" else none

/-- C4 counterexample: `"12a"` is not digits-only, yet `re.match` accepts it
(prefix match), so the entry is stored instead of raising
InvalidIdentifierFormat — refuting the claim's "digits only" biconditional. -/
theorem c4_counterexample :
    (parse_ids c4StudyBad "Study PubMed ID" pubmedMatch [mkPub "T" "A"]).toOption.map
        (fun ps => ps.map (fun p => p "PubMed ID")) = some [some "12a"]
    ∧ "12a".data.all Char.isDigit = false := by
  exact ⟨rfl, rfl⟩

/-- Concrete study used by the C10 concrete out-of-range case: one
title/author pair but two PubMed entries. -/
def c10Study : PyRec := fun q =>
  if q = "Study Publication Title" then some "T1"
  else if q = "Study Author List" then some "A1"
  else if q = "Study PubMed ID" then some "123\t456"
  else none

/-- Concrete study used by the C10 witness: one in-range PubMed entry. -/
def c10StudyB : PyRec := fun q => if q = "Study PubMed ID" then some "123" else none

/-- C10: `parse_ids` indexes the publications list by the entry's tab-split
position, so whenever every non-empty identifier entry sits at an index
strictly below the number of publications the indexing is in range (no
IndexError); a non-empty entry at a larger index triggers an out-of-range
IndexError, which is none of the specified error kinds. -/
theorem c10_identifier_index_safety :
    (∀ (key : String) (pat : String → Bool) (study : PyRec) (raw : String) (pubs : List Pub),
      study key = some raw →
      (∀ j (hj : j < (splitTab raw).length), (splitTab raw).get ⟨j, hj⟩ ≠ "" →
        j < pubs.length) →
      parse_ids study key pat pubs ≠ .error .indexError)
    ∧ parse_publications c10Study = .error .indexError
    ∧ (∀ k t i f v n,
        StudyError.indexError ≠ .missingKey k
        ∧ StudyError.indexError ≠ .missingComponentSection t i
        ∧ StudyError.indexError ≠ .invalidIdentifier f v
        ∧ StudyError.indexError ≠ .mismatchedPublicationCount
        ∧ StudyError.indexError ≠ .noComponents
        ∧ StudyError.indexError ≠ .unmatchedName n) := by
  refine ⟨?_, rfl, ?_⟩
  · intro key pat study raw pubs h hrange
    rw [parse_ids_eq_go study key pat pubs raw h]
    exact parseIdsGo_no_index_error _ pat (splitTab raw) 0 pubs
      (fun j hj hne => by
        have := hrange j hj hne
        omega)
  · intro k t i f v n
    exact ⟨nofun, nofun, nofun, nofun, nofun, nofun⟩

/-- Witness for C10: with a single in-range entry no IndexError is raised. -/
theorem c10_witness :
    parse_ids c10StudyB "Study PubMed ID" pubmedMatch [mkPub "T1" "A1"]
      ≠ .error .indexError := by
  refine c10_identifier_index_safety.1 "Study PubMed ID" pubmedMatch c10StudyB "123"
    [mkPub "T1" "A1"] rfl ?_
  intro j hj hne
  have hlen : (splitTab "123").length = 1 := rfl
  rw [hlen] at hj
  exact hj

theorem studyBind_ok {α β : Type} (a : α) (f : α → Except StudyError β) :
    (do let x ← (Except.ok a : Except StudyError α); f x) = f a := rfl

theorem studyBind_error {α β : Type} (e : StudyError) (f : α → Except StudyError β) :
    (do let x ← (Except.error e : Except StudyError α); f x) = Except.error e := rfl

theorem mkPub_title (t a : String) : mkPub t a "Title" = some t := by
  simp [mkPub, setR]

theorem mkPub_author (t a : String) : mkPub t a "Author List" = some a := by
  simp [mkPub, setR]

theorem zip_mkPub_length (ts as : List String) (h : ts.length = as.length) :
    (List.zipWith mkPub ts as).length = ts.length := by
  simp [List.length_zipWith]
  omega

theorem parse_publications_eq (study : PyRec) (t a : String)
    (ht : study "Study Publication Title" = some t)
    (ha : study "Study Author List" = some a) :
    parse_publications study =
      (if (splitTab t).length = (splitTab a).length then
        (do
          let pubs1 ← parse_ids study "Study PubMed ID" pubmedMatch
            (List.zipWith mkPub (splitTab t) (splitTab a))
          let pubs2 ← parse_ids study "Study PMC ID" pmcMatch pubs1
          let pubs3 ← parse_ids study "Study DOI" doiMatch pubs2
          return pubs3)
      else .error .mismatchedPublicationCount) := by
  unfold parse_publications
  rw [show getItem study "Study Publication Title" = .ok t from by rw [getItem, ht],
    studyBind_ok,
    show getItem study "Study Author List" = .ok a from by rw [getItem, ha],
    studyBind_ok]

/-- C6: publication reconciliation fails with MismatchedPublicationCount
exactly when the tab-splits of `Study Publication Title` and
`Study Author List` have different lengths; with equal lengths it builds one
publication per index with Title and Author List taken positionally. -/
theorem c6_publication_reconciliation :
    ∀ (study : PyRec) (t a : String),
      study "Study Publication Title" = some t →
      study "Study Author List" = some a →
      ((parse_publications study = .error .mismatchedPublicationCount ↔
          (splitTab t).length ≠ (splitTab a).length)
      ∧ (∀ pubs, parse_publications study = .ok pubs →
          pubs.length = (splitTab t).length
          ∧ ∀ j (hj : j < pubs.length),
              (pubs.get ⟨j, hj⟩) "Title" = (splitTab t)[j]?
              ∧ (pubs.get ⟨j, hj⟩) "Author List" = (splitTab a)[j]?)) := by
  intro study t a ht ha
  have hpp := parse_publications_eq study t a ht ha
  by_cases hlen : (splitTab t).length = (splitTab a).length
  · rw [if_pos hlen] at hpp
    constructor
    · constructor
      · intro herr
        exfalso
        rw [hpp] at herr
        cases h1 : parse_ids study "Study PubMed ID" pubmedMatch
            (List.zipWith mkPub (splitTab t) (splitTab a)) with
        | error e =>
          rw [h1, studyBind_error] at herr
          cases herr
          rcases parse_ids_error_kinds _ _ _ _ _ h1 with hk | ⟨f, v, hk⟩ <;> cases hk
        | ok pubs1 =>
          rw [h1, studyBind_ok] at herr
          cases h2 : parse_ids study "Study PMC ID" pmcMatch pubs1 with
          | error e =>
            rw [h2, studyBind_error] at herr
            cases herr
            rcases parse_ids_error_kinds _ _ _ _ _ h2 with hk | ⟨f, v, hk⟩ <;> cases hk
          | ok pubs2 =>
            rw [h2, studyBind_ok] at herr
            cases h3 : parse_ids study "Study DOI" doiMatch pubs2 with
            | error e =>
              rw [h3, studyBind_error] at herr
              cases herr
              rcases parse_ids_error_kinds _ _ _ _ _ h3 with hk | ⟨f, v, hk⟩ <;> cases hk
            | ok pubs3 =>
              rw [h3, studyBind_ok] at herr
              cases herr
      · intro hne
        exact absurd hlen hne
    · intro pubs hok
      rw [hpp] at hok
      cases h1 : parse_ids study "Study PubMed ID" pubmedMatch
          (List.zipWith mkPub (splitTab t) (splitTab a)) with
      | error e =>
        rw [h1, studyBind_error] at hok
        cases hok
      | ok pubs1 =>
        rw [h1, studyBind_ok] at hok
        cases h2 : parse_ids study "Study PMC ID" pmcMatch pubs1 with
        | error e =>
          rw [h2, studyBind_error] at hok
          cases hok
        | ok pubs2 =>
          rw [h2, studyBind_ok] at hok
          cases h3 : parse_ids study "Study DOI" doiMatch pubs2 with
          | error e =>
            rw [h3, studyBind_error] at hok
            cases hok
          | ok pubs3 =>
            rw [h3, studyBind_ok] at hok
            cases hok
            obtain ⟨hl1, hp1⟩ := parse_ids_preserves _ _ _ _ _ h1
            obtain ⟨hl2, hp2⟩ := parse_ids_preserves _ _ _ _ _ h2
            obtain ⟨hl3, hp3⟩ := parse_ids_preserves _ _ _ _ _ h3
            have hl0 : (List.zipWith mkPub (splitTab t) (splitTab a)).length
                = (splitTab t).length := zip_mkPub_length _ _ hlen
            refine ⟨by omega, ?_⟩
            intro j hj
            have hj2 : j < pubs2.length := by omega
            have hj1 : j < pubs1.length := by omega
            have hj0 : j < (List.zipWith mkPub (splitTab t) (splitTab a)).length := by
              omega
            have hjt : j < (splitTab t).length := by omega
            have hja : j < (splitTab a).length := by omega
            have hT : (pubs.get ⟨j, hj⟩) "Title"
                = ((List.zipWith mkPub (splitTab t) (splitTab a)).get ⟨j, hj0⟩) "Title" := by
              rw [hp3 j hj2 hj "Title" (by decide), hp2 j hj1 hj2 "Title" (by decide),
                hp1 j hj0 hj1 "Title" (by decide)]
            have hA : (pubs.get ⟨j, hj⟩) "Author List"
                = ((List.zipWith mkPub (splitTab t) (splitTab a)).get ⟨j, hj0⟩) "Author List" := by
              rw [hp3 j hj2 hj "Author List" (by decide), hp2 j hj1 hj2 "Author List" (by decide),
                hp1 j hj0 hj1 "Author List" (by decide)]
            have hzip : (List.zipWith mkPub (splitTab t) (splitTab a)).get ⟨j, hj0⟩
                = mkPub ((splitTab t).get ⟨j, hjt⟩) ((splitTab a).get ⟨j, hja⟩) := by
              simp [List.get_eq_getElem, List.getElem_zipWith]
            constructor
            · rw [hT, hzip, mkPub_title]
              rw [List.getElem?_eq_getElem hjt]
              simp [List.get_eq_getElem]
            · rw [hA, hzip, mkPub_author]
              rw [List.getElem?_eq_getElem hja]
              simp [List.get_eq_getElem]
  · rw [if_neg hlen] at hpp
    constructor
    · constructor
      · intro _
        exact hlen
      · intro _
        exact hpp
    · intro pubs hok
      rw [hpp] at hok
      cases hok

/-- Concrete study used by the C6 witness: two titles, two authors. -/
def c6Study : PyRec := fun q =>
  if q = "Study Publication Title" then some "PT1\tPT2"
  else if q = "Study Author List" then some "A1\tA2"
  else none

/-- Witness for C6: with equal tab-split lengths, reconciliation succeeds
and yields one publication per title. -/
theorem c6_witness :
    (parse_publications c6Study).toOption.map List.length = some 2 := by
  cases hres : parse_publications c6Study with
  | error e =>
    exfalso
    have hExp : (parse_publications c6Study).isOk = true := rfl
    rw [hres] at hExp
    cases hExp
  | ok pubs =>
    obtain ⟨hlen, _⟩ :=
      (c6_publication_reconciliation c6Study "PT1\tPT2" "A1\tA2" rfl rfl).2 pubs hres
    have hl2 : (splitTab "PT1\tPT2").length = 2 := rfl
    simp [Except.toOption, hlen, hl2]

/-!  Annotation file resolution (`StudyParser.parse_annotation_file`).

The name pattern is `re.compile("(%s-\w+-\w+)/(\w+)$" % accession_number)`
with the accession interpolated as a literal.  `\w` is `[A-Za-z0-9_]`; since
`-` and `/` are not word characters, backtracking cannot move the
separators, and the regex matches iff the name decomposes uniquely as
`<accession>-<w1>-<w2>/<w3>` with each `<wi>` a non-empty word-character
run and nothing after `<w3>`; group 1 is `<accession>-<w1>-<w2>` and
group 2 is `<w3>`.  The filesystem is embedded as the list of existing
paths. -/

/-- Python regex `\w` (ASCII): letters, digits, underscore. -/
def isWordChar (c : Char) : Bool := c.isAlphanum || c = '_'

/-- Match of `(<acc>-\w+-\w+)/(\w+)$` against a name, returning
`(group 1, group 2)` on success. -/
def nameMatch (acc name : String) : Option (String × String) :=
  let pre := (acc ++ "-").data
  if pre.isPrefixOf name.data then
    let r := name.data.drop pre.length
    let w1 := r.takeWhile isWordChar
    match w1, r.drop w1.length with
    | [], _ => none
    | _ :: _, '-' :: r2 =>
      let w2 := r2.takeWhile isWordChar
      match w2, r2.drop w2.length with
      | [], _ => none
      | _ :: _, '/' :: r4 =>
        let w3 := r4.takeWhile isWordChar
        if w3 ≠ [] ∧ r4.drop w3.length = [] then
          some (String.mk (acc.data ++ '-' :: w1 ++ '-' :: w2), String.mk w3)
        else none
      | _, _ => none
    | _, _ => none
  else none

/-- Python 2 `os.path.join(a, b)` for the POSIX paths used here. -/
def pjoin (a b : String) : String :=
  if b.data.head? = some '/' then b
  else if a = "" then b
  else if a.data.getLast? = some '/' then a ++ b
  else a ++ "/" ++ b

/-- `StudyParser.parse_annotation_file(component)`: resolve the component
name, probe `<accession>-<slug>-annotation` with `.csv` then `.csv.gz` in the
slug subdirectory next to the study file, and on the first hit store a GitHub
URL under `Annotation File`; no hit leaves the record unchanged. -/
def parse_annotation_file (fs : List String) (dir : String) (comp : PyRec) :
    Except StudyError PyRec := do
  let acc ← getItem comp "Comment\\[IDR Study Accession\\]"
  let tpe ← getItem comp "Type"
  let name ← getItem comp ("Comment\\[IDR " ++ tpe ++ " Name\\]")
  match nameMatch acc name with
  | none => .error (.unmatchedName name)
  | some (g1, slug) =>
    let component_path := pjoin dir slug
    let basename := acc ++ "-" ++ slug ++ "-annotation"
    let urlFor : String → String := fun fname =>
      if pjoin dir ".git" ∈ fs then
        "https://github.com/IDR/" ++ g1 ++ "/blob/master/" ++ slug ++ "/" ++ fname
      else
        "https://github.com/IDR/" ++ "idr-metadata" ++ "/blob/master/" ++ name ++ "/" ++ fname
    if pjoin component_path (basename ++ ".csv") ∈ fs then
      .ok (setR comp "Annotation File" (urlFor (basename ++ ".csv")))
    else if pjoin component_path (basename ++ ".csv.gz") ∈ fs then
      .ok (setR comp "Annotation File" (urlFor (basename ++ ".csv.gz")))
    else .ok comp

theorem parse_annotation_file_eq (fs : List String) (dir : String) (comp : PyRec)
    (acc tpe name g1 slug : String)
    (hacc : comp "Comment\\[IDR Study Accession\\]" = some acc)
    (htpe : comp "Type" = some tpe)
    (hname : comp ("Comment\\[IDR " ++ tpe ++ " Name\\]") = some name)
    (hm : nameMatch acc name = some (g1, slug)) :
    parse_annotation_file fs dir comp =
      (if pjoin (pjoin dir slug) ((acc ++ "-" ++ slug ++ "-annotation") ++ ".csv") ∈ fs then
        .ok (setR comp "Annotation File"
          (if pjoin dir ".git" ∈ fs then
            "https://github.com/IDR/" ++ g1 ++ "/blob/master/" ++ slug ++ "/"
              ++ ((acc ++ "-" ++ slug ++ "-annotation") ++ ".csv")
          else
            "https://github.com/IDR/" ++ "idr-metadata" ++ "/blob/master/" ++ name ++ "/"
              ++ ((acc ++ "-" ++ slug ++ "-annotation") ++ ".csv")))
      else if pjoin (pjoin dir slug) ((acc ++ "-" ++ slug ++ "-annotation") ++ ".csv.gz") ∈ fs then
        .ok (setR comp "Annotation File"
          (if pjoin dir ".git" ∈ fs then
            "https://github.com/IDR/" ++ g1 ++ "/blob/master/" ++ slug ++ "/"
              ++ ((acc ++ "-" ++ slug ++ "-annotation") ++ ".csv.gz")
          else
            "https://github.com/IDR/" ++ "idr-metadata" ++ "/blob/master/" ++ name ++ "/"
              ++ ((acc ++ "-" ++ slug ++ "-annotation") ++ ".csv.gz")))
      else .ok comp) := by
  unfold parse_annotation_file
  rw [show getItem comp "Comment\\[IDR Study Accession\\]" = .ok acc from by
      rw [getItem, hacc],
    studyBind_ok,
    show getItem comp "Type" = .ok tpe from by rw [getItem, htpe],
    studyBind_ok,
    show getItem comp ("Comment\\[IDR " ++ tpe ++ " Name\\]") = .ok name from by
      rw [getItem, hname],
    studyBind_ok, hm]

/-- C8: the annotation resolver probes `<accession>-<slug>-annotation` with
`.csv` first and `.csv.gz` second in the slug subdirectory next to the input
file; the first extension that exists determines the `Annotation File` URL,
which ends in that extension; when neither exists the record is returned
unchanged (the field stays absent) and no error is raised. -/
theorem c8_annotation_resolution (fs : List String) (dir : String) (comp : PyRec)
    (acc tpe name g1 slug : String)
    (hacc : comp "Comment\\[IDR Study Accession\\]" = some acc)
    (htpe : comp "Type" = some tpe)
    (hname : comp ("Comment\\[IDR " ++ tpe ++ " Name\\]") = some name)
    (hm : nameMatch acc name = some (g1, slug)) :
    ((pjoin (pjoin dir slug) ((acc ++ "-" ++ slug ++ "-annotation") ++ ".csv") ∈ fs →
      ∃ url, parse_annotation_file fs dir comp = .ok (setR comp "Annotation File" url)
        ∧ ∃ p, url = p ++ ".csv")
    ∧ (pjoin (pjoin dir slug) ((acc ++ "-" ++ slug ++ "-annotation") ++ ".csv") ∉ fs →
        pjoin (pjoin dir slug) ((acc ++ "-" ++ slug ++ "-annotation") ++ ".csv.gz") ∈ fs →
        ∃ url, parse_annotation_file fs dir comp = .ok (setR comp "Annotation File" url)
          ∧ ∃ p, url = p ++ ".csv.gz")
    ∧ (pjoin (pjoin dir slug) ((acc ++ "-" ++ slug ++ "-annotation") ++ ".csv") ∉ fs →
        pjoin (pjoin dir slug) ((acc ++ "-" ++ slug ++ "-annotation") ++ ".csv.gz") ∉ fs →
        parse_annotation_file fs dir comp = .ok comp
        ∧ (comp "Annotation File" = none →
            ∀ d, parse_annotation_file fs dir comp = .ok d → d "Annotation File" = none))) := by
  have heq := parse_annotation_file_eq fs dir comp acc tpe name g1 slug hacc htpe hname hm
  refine ⟨?_, ?_, ?_⟩
  · intro hcsv
    rw [heq, if_pos hcsv]
    by_cases hgit : pjoin dir ".git" ∈ fs
    · rw [if_pos hgit]
      exact ⟨_, rfl,
        "https://github.com/IDR/" ++ g1 ++ "/blob/master/" ++ slug ++ "/"
          ++ (acc ++ "-" ++ slug ++ "-annotation"),
        by simp [String.append_assoc]⟩
    · rw [if_neg hgit]
      exact ⟨_, rfl,
        "https://github.com/IDR/" ++ "idr-metadata" ++ "/blob/master/" ++ name ++ "/"
          ++ (acc ++ "-" ++ slug ++ "-annotation"),
        by simp [String.append_assoc]⟩
  · intro hcsv hgz
    rw [heq, if_neg hcsv, if_pos hgz]
    by_cases hgit : pjoin dir ".git" ∈ fs
    · rw [if_pos hgit]
      exact ⟨_, rfl,
        "https://github.com/IDR/" ++ g1 ++ "/blob/master/" ++ slug ++ "/"
          ++ (acc ++ "-" ++ slug ++ "-annotation"),
        by simp [String.append_assoc]⟩
    · rw [if_neg hgit]
      exact ⟨_, rfl,
        "https://github.com/IDR/" ++ "idr-metadata" ++ "/blob/master/" ++ name ++ "/"
          ++ (acc ++ "-" ++ slug ++ "-annotation"),
        by simp [String.append_assoc]⟩
  · intro hcsv hgz
    rw [heq, if_neg hcsv, if_neg hgz]
    refine ⟨rfl, ?_⟩
    intro habs d hd
    cases hd
    exact habs

/-- Concrete component record used by the C8 witness. -/
def c8Comp : PyRec := fun q =>
  if q = "Comment\\[IDR Study Accession\\]" then some "idr0001"
  else if q = "Type" then some "Experiment"
  else if q = "Comment\\[IDR Experiment Name\\]" then some "idr0001-smith-2017/expA"
  else none

/-- Concrete filesystem for the C8 witness: only the `.csv.gz` file exists. -/
def c8Fs : List String := ["d/expA/idr0001-expA-annotation.csv.gz"]

/-- Witness for C8: with only the `.csv.gz` annotation present, resolution
succeeds and stores a URL ending in `.csv.gz`. -/
theorem c8_witness :
    (parse_annotation_file c8Fs "d" c8Comp).isOk = true := by
  obtain ⟨url, hok, p, hp⟩ :=
    (c8_annotation_resolution c8Fs "d" c8Comp "idr0001" "Experiment"
      "idr0001-smith-2017/expA" "idr0001-smith-2017" "expA" rfl rfl rfl rfl).2.1
      (by decide) (by decide)
  rw [hok]
  rfl

/-!  The Study Orchestrator (`StudyParser.__init__`).

The registry keys are the pre-escaped regex literals of the Python module
(in Python source `'Comment\[IDR Study Accession\]'` holds literal
backslashes, and those strings are the dict keys, while `get_value` compiles
them as regexes so the file lines carry the unescaped form). -/

/-- `MANDATORY_KEYS` of the Python module. -/
def MANDATORY_KEYS : String → List String
  | "Study" =>
    ["Comment\\[IDR Study Accession\\]", "Study Title", "Study Description",
      "Study Type", "Study Publication Title", "Study Author List", "Study Organism"]
  | "Experiment" =>
    ["Comment\\[IDR Experiment Name\\]", "Experiment Description",
      "Experiment Imaging Method", "Experiment Number"]
  | "Screen" =>
    ["Comment\\[IDR Screen Name\\]", "Screen Description", "Screen Imaging Method",
      "Screen Number", "Screen Type"]
  | _ => []

/-- `OPTIONAL_KEYS` of the Python module. -/
def OPTIONAL_KEYS : String → List String
  | "Study" =>
    ["Study Publication Preprint", "Study PubMed ID", "Study PMC ID", "Study DOI",
      "Study Copyright", "Study License", "Study License URL", "Study Data Publisher",
      "Study Data DOI", "Study Experiments Number", "Study Screens Number"]
  | "Experiment" => ["Experiment Data DOI", "Experiment Data Publisher"]
  | "Screen" => ["Screen Data DOI", "Screen Data Publisher", "Screen Technology Type"]
  | _ => []

/-- All keys an entity type's record can carry. -/
def keysAll (t : String) : List String := MANDATORY_KEYS t ++ OPTIONAL_KEYS t

/-- `TYPES` of the Python module (fixed processing order). -/
def TYPES : List String := ["Experiment", "Screen"]

/-- `int(self.study.get('Study %ss Number' % t, 0))`. -/
def getCountInt (study : PyRec) (t : String) : Except StudyError Int :=
  match study ("Study " ++ t ++ "s Number") with
  | none => .ok 0
  | some s =>
    match pyInt s with
    | some n => .ok n
    | none => .error .valueError

/-- The per-type component loop of `StudyParser.__init__` (`for i in
range(n)`, parsing section `i + 1`): parse the section with the type's
schema, tag with `Type`, merge in every study field (`d.update(self.study)`,
so the study's value wins on a key collision), resolve the annotation file,
and attach the study's publication list. -/
def buildComps (fs : List String) (dir : String) (studyLines : List String)
    (studyF : PyRec) (pubs : List Pub) (t : String) :
    Nat → Nat → Except StudyError (List Comp)
  | 0, _ => .ok []
  | n + 1, i => do
    let sec ← get_lines t i studyLines
    let own ← parse studyLines (MANDATORY_KEYS t) (OPTIONAL_KEYS t) (some sec)
    let d ← parse_annotation_file fs dir (updateR (setR own "Type" t) studyF)
    let rest ← buildComps fs dir studyLines studyF pubs t n (i + 1)
    return (d, pubs) :: rest

/-- `StudyParser.__init__` after the file read: parse the study record,
reconcile publications, build Experiment components then Screen components,
and fail with NoComponentsFound when no component was built. -/
def studyParserInit (fs : List String) (dir : String) (studyLines : List String) :
    Except StudyError (PyRec × List Pub × List Comp) := do
  let study ← parse studyLines (MANDATORY_KEYS "Study") (OPTIONAL_KEYS "Study") none
  let pubs ← parse_publications study
  let nE ← getCountInt study "Experiment"
  let exps ← buildComps fs dir studyLines study pubs "Experiment" nE.toNat 1
  let nS ← getCountInt study "Screen"
  let scrs ← buildComps fs dir studyLines study pubs "Screen" nS.toNat 1
  if (exps ++ scrs).isEmpty then .error .noComponents
  else return (study, pubs, exps ++ scrs)

theorem parseMand_support (sl : List String) (lines : Option (List String)) :
    ∀ (ks : List String) (d d' : PyRec), parseMand sl lines ks d = .ok d' →
      ∀ q, d' q = d q ∨ q ∈ ks := by
  intro ks
  induction ks with
  | nil =>
    intro d d' h q
    rw [parseMand] at h
    cases h
    exact Or.inl rfl
  | cons k ks ih =>
    intro d d' h q
    cases hf : findValue k (effLines sl lines) with
    | none =>
      rw [parseMand_cons_none sl lines k ks d hf] at h
      cases h
    | some v =>
      rw [parseMand_cons_some sl lines k ks d v hf] at h
      rcases ih (setR d k v) d' h q with hq | hq
      · by_cases hqk : q = k
        · exact Or.inr (by rw [hqk]; exact List.mem_cons_self k ks)
        · refine Or.inl ?_
          rw [hq]
          simp [setR, hqk]
      · exact Or.inr (List.mem_cons_of_mem k hq)

theorem parseOpt_support (sl : List String) (lines : Option (List String)) :
    ∀ (ks : List String) (d d' : PyRec), parseOpt sl lines ks d = .ok d' →
      ∀ q, d' q = d q ∨ q ∈ ks := by
  intro ks
  induction ks with
  | nil =>
    intro d d' h q
    rw [parseOpt] at h
    cases h
    exact Or.inl rfl
  | cons k ks ih =>
    intro d d' h q
    cases hf : findValue k (effLines sl lines) with
    | none =>
      rw [parseOpt_cons_none sl lines k ks d hf] at h
      rcases ih d d' h q with hq | hq
      · exact Or.inl hq
      · exact Or.inr (List.mem_cons_of_mem k hq)
    | some v =>
      by_cases hv : v ≠ ""
      · rw [parseOpt_cons_some_ne sl lines k ks d v hf hv] at h
        rcases ih (setR d k v) d' h q with hq | hq
        · by_cases hqk : q = k
          · exact Or.inr (by rw [hqk]; exact List.mem_cons_self k ks)
          · refine Or.inl ?_
            rw [hq]
            simp [setR, hqk]
        · exact Or.inr (List.mem_cons_of_mem k hq)
      · rw [parseOpt_cons_some_eq sl lines k ks d v hf hv] at h
        rcases ih d d' h q with hq | hq
        · exact Or.inl hq
        · exact Or.inr (List.mem_cons_of_mem k hq)

theorem parse_support (sl : List String) (mand opt : List String)
    (lines : Option (List String)) (d : PyRec)
    (h : parse sl mand opt lines = .ok d) :
    ∀ q, d q ≠ none → q ∈ mand ++ opt := by
  unfold parse at h
  cases hm : parseMand sl lines mand emptyRec with
  | error e =>
    rw [hm, studyBind_error] at h
    cases h
  | ok d1 =>
    rw [hm, studyBind_ok] at h
    intro q hq
    rcases parseOpt_support sl lines opt d1 d h q with hq1 | hq1
    · rcases parseMand_support sl lines mand emptyRec d1 hm q with hq2 | hq2
      · exfalso
        apply hq
        rw [hq1, hq2]
        rfl
      · exact List.mem_append.mpr (Or.inl hq2)
    · exact List.mem_append.mpr (Or.inr hq1)

theorem parse_annotation_file_preserves (fs : List String) (dir : String)
    (comp d : PyRec) (h : parse_annotation_file fs dir comp = .ok d) :
    ∀ q, q ≠ "Annotation File" → d q = comp q := by
  cases hacc : comp "Comment\\[IDR Study Accession\\]" with
  | none =>
    have herr : parse_annotation_file fs dir comp = .error .keyError := by
      unfold parse_annotation_file
      rw [show getItem comp "Comment\\[IDR Study Accession\\]" = .error .keyError from by
          rw [getItem, hacc],
        studyBind_error]
    rw [herr] at h
    cases h
  | some acc =>
    cases htpe : comp "Type" with
    | none =>
      have herr : parse_annotation_file fs dir comp = .error .keyError := by
        unfold parse_annotation_file
        rw [show getItem comp "Comment\\[IDR Study Accession\\]" = .ok acc from by
            rw [getItem, hacc],
          studyBind_ok,
          show getItem comp "Type" = .error .keyError from by rw [getItem, htpe],
          studyBind_error]
      rw [herr] at h
      cases h
    | some tpe =>
      cases hname : comp ("Comment\\[IDR " ++ tpe ++ " Name\\]") with
      | none =>
        have herr : parse_annotation_file fs dir comp = .error .keyError := by
          unfold parse_annotation_file
          rw [show getItem comp "Comment\\[IDR Study Accession\\]" = .ok acc from by
              rw [getItem, hacc],
            studyBind_ok,
            show getItem comp "Type" = .ok tpe from by rw [getItem, htpe],
            studyBind_ok,
            show getItem comp ("Comment\\[IDR " ++ tpe ++ " Name\\]") = .error .keyError from by
              rw [getItem, hname],
            studyBind_error]
        rw [herr] at h
        cases h
      | some name =>
        cases hm : nameMatch acc name with
        | none =>
          have herr : parse_annotation_file fs dir comp = .error (.unmatchedName name) := by
            unfold parse_annotation_file
            rw [show getItem comp "Comment\\[IDR Study Accession\\]" = .ok acc from by
                rw [getItem, hacc],
              studyBind_ok,
              show getItem comp "Type" = .ok tpe from by rw [getItem, htpe],
              studyBind_ok,
              show getItem comp ("Comment\\[IDR " ++ tpe ++ " Name\\]") = .ok name from by
                rw [getItem, hname],
              studyBind_ok, hm]
          rw [herr] at h
          cases h
        | some pr =>
          obtain ⟨g1, slug⟩ := pr
          have heq := parse_annotation_file_eq fs dir comp acc tpe name g1 slug
            hacc htpe hname hm
          rw [heq] at h
          by_cases hcsv :
              pjoin (pjoin dir slug) ((acc ++ "-" ++ slug ++ "-annotation") ++ ".csv") ∈ fs
          · rw [if_pos hcsv] at h
            cases h
            intro q hq
            simp [setR, hq]
          · rw [if_neg hcsv] at h
            by_cases hgz :
                pjoin (pjoin dir slug) ((acc ++ "-" ++ slug ++ "-annotation") ++ ".csv.gz") ∈ fs
            · rw [if_pos hgz] at h
              cases h
              intro q hq
              simp [setR, hq]
            · rw [if_neg hgz] at h
              cases h
              intro q _
              rfl

theorem buildComps_props (fs : List String) (dir : String) (sl : List String)
    (studyF : PyRec) (pubs : List Pub) (t : String) :
    ∀ (n i : Nat) (l : List Comp), buildComps fs dir sl studyF pubs t n i = .ok l →
      l.length = n
      ∧ ∀ c ∈ l, c.2 = pubs
        ∧ ∃ j sec own d0,
            get_lines t j sl = .ok sec
            ∧ parse sl (MANDATORY_KEYS t) (OPTIONAL_KEYS t) (some sec) = .ok own
            ∧ parse_annotation_file fs dir (updateR (setR own "Type" t) studyF) = .ok d0
            ∧ c.1 = d0 := by
  intro n
  induction n with
  | zero =>
    intro i l h
    rw [buildComps] at h
    cases h
    exact ⟨rfl, by simp⟩
  | succ n ih =>
    intro i l h
    rw [buildComps] at h
    cases h1 : get_lines t i sl with
    | error e =>
      rw [h1, studyBind_error] at h
      cases h
    | ok sec =>
      rw [h1, studyBind_ok] at h
      cases h2 : parse sl (MANDATORY_KEYS t) (OPTIONAL_KEYS t) (some sec) with
      | error e =>
        rw [h2, studyBind_error] at h
        cases h
      | ok own =>
        rw [h2, studyBind_ok] at h
        cases h3 : parse_annotation_file fs dir (updateR (setR own "Type" t) studyF) with
        | error e =>
          rw [h3, studyBind_error] at h
          cases h
        | ok d0 =>
          rw [h3, studyBind_ok] at h
          cases h4 : buildComps fs dir sl studyF pubs t n (i + 1) with
          | error e =>
            rw [h4, studyBind_error] at h
            cases h
          | ok rest =>
            rw [h4, studyBind_ok] at h
            cases h
            obtain ⟨hlen, hprops⟩ := ih (i + 1) rest h4
            refine ⟨by simp [hlen], ?_⟩
            intro c hc
            rcases List.mem_cons.mp hc with hc | hc
            · subst hc
              exact ⟨rfl, i, sec, own, d0, h1, h2, h3, rfl⟩
            · exact hprops c hc

theorem studyParserInit_props (fs : List String) (dir : String) (sl : List String)
    (study : PyRec) (pubs : List Pub) (comps : List Comp)
    (h : studyParserInit fs dir sl = .ok (study, pubs, comps)) :
    parse sl (MANDATORY_KEYS "Study") (OPTIONAL_KEYS "Study") none = .ok study
    ∧ parse_publications study = .ok pubs
    ∧ ∃ nE nS : Int,
        getCountInt study "Experiment" = .ok nE
        ∧ getCountInt study "Screen" = .ok nS
        ∧ ∃ exps scrs,
            buildComps fs dir sl study pubs "Experiment" nE.toNat 1 = .ok exps
            ∧ buildComps fs dir sl study pubs "Screen" nS.toNat 1 = .ok scrs
            ∧ comps = exps ++ scrs ∧ comps ≠ [] := by
  unfold studyParserInit at h
  cases h0 : parse sl (MANDATORY_KEYS "Study") (OPTIONAL_KEYS "Study") none with
  | error e =>
    rw [h0, studyBind_error] at h
    cases h
  | ok study0 =>
    rw [h0, studyBind_ok] at h
    cases hp : parse_publications study0 with
    | error e =>
      rw [hp, studyBind_error] at h
      cases h
    | ok pubs0 =>
      rw [hp, studyBind_ok] at h
      cases hE : getCountInt study0 "Experiment" with
      | error e =>
        rw [hE, studyBind_error] at h
        cases h
      | ok nE =>
        rw [hE, studyBind_ok] at h
        cases hbe : buildComps fs dir sl study0 pubs0 "Experiment" nE.toNat 1 with
        | error e =>
          rw [hbe, studyBind_error] at h
          cases h
        | ok exps =>
          rw [hbe, studyBind_ok] at h
          cases hS : getCountInt study0 "Screen" with
          | error e =>
            rw [hS, studyBind_error] at h
            cases h
          | ok nS =>
            rw [hS, studyBind_ok] at h
            cases hbs : buildComps fs dir sl study0 pubs0 "Screen" nS.toNat 1 with
            | error e =>
              rw [hbs, studyBind_error] at h
              cases h
            | ok scrs =>
              rw [hbs, studyBind_ok] at h
              by_cases hemp : (exps ++ scrs).isEmpty = true
              · rw [if_pos hemp] at h
                cases h
              · rw [if_neg hemp] at h
                cases h
                refine ⟨rfl, hp, nE, nS, hE, hS, exps, scrs, hbe, hbs, rfl, ?_⟩
                intro hcon
                rw [hcon] at hemp
                exact hemp rfl

theorem buildComps_merge (fs : List String) (dir : String) (sl : List String)
    (studyF : PyRec) (pubs : List Pub) (t : String)
    (hsuppS : ∀ q, studyF q ≠ none → q ∈ keysAll "Study")
    (hdisj : ∀ q ∈ keysAll t, q ∉ keysAll "Study")
    (hTyS : "Type" ∉ keysAll "Study")
    (hTyT : "Type" ∉ keysAll t)
    (hAnnT : "Annotation File" ∉ keysAll t)
    (hAnnS : "Annotation File" ∉ keysAll "Study")
    (n i : Nat) (l : List Comp) (hb : buildComps fs dir sl studyF pubs t n i = .ok l) :
    l.length = n
    ∧ ∀ c ∈ l, c.2 = pubs
        ∧ c.1 "Type" = some t
        ∧ ∃ j sec own,
            get_lines t j sl = .ok sec
            ∧ parse sl (MANDATORY_KEYS t) (OPTIONAL_KEYS t) (some sec) = .ok own
            ∧ (∀ k v, own k = some v → c.1 k = some v)
            ∧ (∀ k v, studyF k = some v → c.1 k = some v)
            ∧ (∀ k v w, own k = some v → studyF k = some w → c.1 k = some v)
            ∧ (∀ k, own k = none ∨ studyF k = none) := by
  obtain ⟨hlen, hprops⟩ := buildComps_props fs dir sl studyF pubs t n i l hb
  refine ⟨hlen, ?_⟩
  intro c hc
  obtain ⟨hc2, j, sec, own, d0, hgl, hparse, hann, hc1⟩ := hprops c hc
  have hsuppT : ∀ q, own q ≠ none → q ∈ keysAll t := fun q hq =>
    parse_support sl (MANDATORY_KEYS t) (OPTIONAL_KEYS t) (some sec) own hparse q hq
  have hpres := parse_annotation_file_preserves fs dir _ d0 hann
  have hSTy : studyF "Type" = none := by
    by_contra hcon
    exact hTyS (hsuppS "Type" hcon)
  have hTyAnn : ("Type" : String) ≠ "Annotation File" := by decide
  refine ⟨hc2, ?_, j, sec, own, hgl, hparse, ?_, ?_, ?_, ?_⟩
  · rw [hc1, hpres "Type" hTyAnn]
    simp [updateR, hSTy, setR]
  · intro k v hk
    have hkT : k ∈ keysAll t := hsuppT k (by simp [hk])
    have hkS : studyF k = none := by
      by_contra hcon
      exact hdisj k hkT (hsuppS k hcon)
    have hkAnn : k ≠ "Annotation File" := by
      intro hcon
      rw [hcon] at hkT
      exact hAnnT hkT
    have hkTy : k ≠ "Type" := by
      intro hcon
      rw [hcon] at hkT
      exact hTyT hkT
    rw [hc1, hpres k hkAnn]
    simp [updateR, hkS, setR, hkTy, hk]
  · intro k v hk
    have hkS : k ∈ keysAll "Study" := hsuppS k (by simp [hk])
    have hkAnn : k ≠ "Annotation File" := by
      intro hcon
      rw [hcon] at hkS
      exact hAnnS hkS
    rw [hc1, hpres k hkAnn]
    simp [updateR, hk]
  · intro k v w hko hks
    exfalso
    have hkT : k ∈ keysAll t := hsuppT k (by simp [hko])
    exact hdisj k hkT (hsuppS k (by simp [hks]))
  · intro k
    by_cases hko : own k = none
    · exact Or.inl hko
    · right
      by_contra hcon
      exact hdisj k (hsuppT k hko) (hsuppS k hcon)

/-- C1: every component record built by the orchestrator carries the
component's own parsed mandatory/optional fields and every field of the
owning study record (including the publication list); on a field-name
collision the component's own value would take precedence — a property that
holds because no collision can occur: the component and study key sets are
disjoint (the code's `d.update(self.study)` would actually prefer the
study's value, but there is never a shared key). -/
theorem c1_component_merge :
    ∀ (fs : List String) (dir : String) (sl : List String) (study : PyRec)
      (pubs : List Pub) (comps : List Comp),
      studyParserInit fs dir sl = .ok (study, pubs, comps) →
      ∀ c ∈ comps,
        c.2 = pubs
        ∧ ∃ t, (t = "Experiment" ∨ t = "Screen")
          ∧ c.1 "Type" = some t
          ∧ ∃ j sec own,
              get_lines t j sl = .ok sec
              ∧ parse sl (MANDATORY_KEYS t) (OPTIONAL_KEYS t) (some sec) = .ok own
              ∧ (∀ k v, own k = some v → c.1 k = some v)
              ∧ (∀ k v, study k = some v → c.1 k = some v)
              ∧ (∀ k v w, own k = some v → study k = some w → c.1 k = some v)
              ∧ (∀ k, own k = none ∨ study k = none) := by
  intro fs dir sl study pubs comps h c hc
  obtain ⟨hstudy, hpub, nE, nS, hE, hS, exps, scrs, hbe, hbs, hcomps, hne⟩ :=
    studyParserInit_props fs dir sl study pubs comps h
  have hsuppS : ∀ q, study q ≠ none → q ∈ keysAll "Study" := fun q hq =>
    parse_support sl _ _ none study hstudy q hq
  rw [hcomps] at hc
  rcases List.mem_append.mp hc with hce | hcs
  · obtain ⟨_, hall⟩ := buildComps_merge fs dir sl study pubs "Experiment" hsuppS
      (by decide) (by decide) (by decide) (by decide) (by decide) nE.toNat 1 exps hbe
    obtain ⟨h2, hTy, j, sec, own, hgl, hparse, hA, hB, hC, hD⟩ := hall c hce
    exact ⟨h2, "Experiment", Or.inl rfl, hTy, j, sec, own, hgl, hparse, hA, hB, hC, hD⟩
  · obtain ⟨_, hall⟩ := buildComps_merge fs dir sl study pubs "Screen" hsuppS
      (by decide) (by decide) (by decide) (by decide) (by decide) nS.toNat 1 scrs hbs
    obtain ⟨h2, hTy, j, sec, own, hgl, hparse, hA, hB, hC, hD⟩ := hall c hcs
    exact ⟨h2, "Screen", Or.inr rfl, hTy, j, sec, own, hgl, hparse, hA, hB, hC, hD⟩

/-- Concrete study with all mandatory fields but zero experiments and zero
screens, used for the NoComponentsFound side of C7. -/
def studyLines2 : List String :=
  ["Comment[IDR Study Accession]\tidr0001\n",
   "Study Title\tT\n",
   "Study Description\tD\n",
   "Study Type\tST\n",
   "Study Publication Title\tPT\n",
   "Study Author List\tAL\n",
   "Study Organism\tO\n",
   "Study Experiments Number\t0\n",
   "Study Screens Number\t0\n"]

set_option maxRecDepth 8000 in
/-- C7 (amended): after successful construction the number of components
tagged with a type equals `max 0 n` (`Int.toNat`) of the integer value of
`Study <Type>s Number` (0 when absent; a negative value yields zero
components, not a negative count), and all Experiment components precede all
Screen components.  When both counts yield zero components — so the
component list would be empty — construction instead fails with the
NoComponentsFound error, as the second conjunct proves in general and the
third on the concrete both-zero study. -/
theorem c7_component_counts :
    (∀ (fs : List String) (dir : String) (sl : List String) (study : PyRec)
      (pubs : List Pub) (comps : List Comp),
      studyParserInit fs dir sl = .ok (study, pubs, comps) →
      comps ≠ []
      ∧ ∃ nE nS : Int,
          getCountInt study "Experiment" = .ok nE
          ∧ getCountInt study "Screen" = .ok nS
          ∧ comps.countP (fun c => c.1 "Type" == some "Experiment") = nE.toNat
          ∧ comps.countP (fun c => c.1 "Type" == some "Screen") = nS.toNat
          ∧ ∃ es ss, comps = es ++ ss
              ∧ (∀ c ∈ es, c.1 "Type" = some "Experiment")
              ∧ (∀ c ∈ ss, c.1 "Type" = some "Screen")
              ∧ es.length = nE.toNat ∧ ss.length = nS.toNat)
    ∧ (∀ (fs : List String) (dir : String) (sl : List String) (study : PyRec)
        (pubs : List Pub) (nE nS : Int),
        parse sl (MANDATORY_KEYS "Study") (OPTIONAL_KEYS "Study") none = .ok study →
        parse_publications study = .ok pubs →
        getCountInt study "Experiment" = .ok nE →
        getCountInt study "Screen" = .ok nS →
        nE.toNat = 0 →
        nS.toNat = 0 →
        studyParserInit fs dir sl = .error .noComponents)
    ∧ studyParserInit [] "" studyLines2 = .error .noComponents := by
  refine ⟨?_, ?_, ?_⟩
  · intro fs dir sl study pubs comps h
    obtain ⟨hstudy, hpub, nE, nS, hE, hS, exps, scrs, hbe, hbs, hcomps, hne⟩ :=
      studyParserInit_props fs dir sl study pubs comps h
    have hsuppS : ∀ q, study q ≠ none → q ∈ keysAll "Study" := fun q hq =>
      parse_support sl _ _ none study hstudy q hq
    obtain ⟨hlenE, hallE⟩ := buildComps_merge fs dir sl study pubs "Experiment" hsuppS
      (by decide) (by decide) (by decide) (by decide) (by decide) nE.toNat 1 exps hbe
    obtain ⟨hlenS, hallS⟩ := buildComps_merge fs dir sl study pubs "Screen" hsuppS
      (by decide) (by decide) (by decide) (by decide) (by decide) nS.toNat 1 scrs hbs
    have hTyE : ∀ c ∈ exps, c.1 "Type" = some "Experiment" := fun c hc => (hallE c hc).2.1
    have hTyS : ∀ c ∈ scrs, c.1 "Type" = some "Screen" := fun c hc => (hallS c hc).2.1
    have hcntE : comps.countP (fun c => c.1 "Type" == some "Experiment") = nE.toNat := by
      rw [hcomps, List.countP_append]
      have h1 : exps.countP (fun c => c.1 "Type" == some "Experiment") = exps.length :=
        List.countP_eq_length.mpr (fun c hc => by simp [hTyE c hc])
      have h2 : scrs.countP (fun c => c.1 "Type" == some "Experiment") = 0 :=
        List.countP_eq_zero.mpr (fun c hc => by simp [hTyS c hc])
      rw [h1, h2, hlenE]
      omega
    have hcntS : comps.countP (fun c => c.1 "Type" == some "Screen") = nS.toNat := by
      rw [hcomps, List.countP_append]
      have h1 : exps.countP (fun c => c.1 "Type" == some "Screen") = 0 :=
        List.countP_eq_zero.mpr (fun c hc => by simp [hTyE c hc])
      have h2 : scrs.countP (fun c => c.1 "Type" == some "Screen") = scrs.length :=
        List.countP_eq_length.mpr (fun c hc => by simp [hTyS c hc])
      rw [h1, h2, hlenS]
      omega
    exact ⟨hne, nE, nS, hE, hS, hcntE, hcntS, exps, scrs, hcomps, hTyE, hTyS, hlenE, hlenS⟩
  · intro fs dir sl study pubs nE nS hstudy hpub hE hS hE0 hS0
    unfold studyParserInit
    rw [hstudy, studyBind_ok, hpub, studyBind_ok, hE, studyBind_ok, hE0,
      show buildComps fs dir sl study pubs "Experiment" 0 1 = .ok [] from rfl,
      studyBind_ok, hS, studyBind_ok, hS0,
      show buildComps fs dir sl study pubs "Screen" 0 1 = .ok [] from rfl,
      studyBind_ok]
    rfl
  · rfl

/-- Concrete well-formed study file used by the C1 and C7 witnesses: all
mandatory study fields, one experiment, no screens. -/
def studyLines0 : List String :=
  ["Comment[IDR Study Accession]\tidr0001\n",
   "Study Title\tT\n",
   "Study Description\tD\n",
   "Study Type\tST\n",
   "Study Publication Title\tPT\n",
   "Study Author List\tAL\n",
   "Study Organism\tO\n",
   "Study Experiments Number\t1\n",
   "Experiment Number\t1\n",
   "Comment[IDR Experiment Name]\tidr0001-smith-2017/expA\n",
   "Experiment Description\tED\n",
   "Experiment Imaging Method\tEIM\n"]

/-- The same study with a negative `Study Screens Number`, used by the C7
counterexample: `int("-1")` succeeds and `range(-1)` is empty. -/
def studyLines1 : List String := studyLines0 ++ ["Study Screens Number\t-1\n"]

set_option maxRecDepth 8000 in
/-- Witness for C1: in the concrete study every built component carries the
study's `Study Title` field. -/
theorem c1_witness :
    ((studyParserInit [] "" studyLines0).toOption.map
      (fun x => x.2.2.all (fun c => c.1 "Study Title" == some "T"))) = some true := by
  cases hres : studyParserInit [] "" studyLines0 with
  | error e =>
    exfalso
    have hOk : (studyParserInit [] "" studyLines0).isOk = true := by rfl
    rw [hres] at hOk
    cases hOk
  | ok x =>
    have hs : x.1 "Study Title" = some "T" := by
      have hval : (studyParserInit [] "" studyLines0).toOption.map
          (fun y => y.1 "Study Title") = some (some "T") := by rfl
      rw [hres] at hval
      simpa [Except.toOption] using hval
    have hmerge := c1_component_merge [] "" studyLines0 x.1 x.2.1 x.2.2 (by rw [hres])
    simp only [Except.toOption, Option.map]
    refine congrArg some ?_
    rw [List.all_eq_true]
    intro c hc
    obtain ⟨hc2, t, ht, hTy, j, sec, own, hgl, hparse, hA, hB, hC, hD⟩ := hmerge c hc
    have := hB "Study Title" "T" hs
    simp [this]

set_option maxRecDepth 8000 in
/-- Witness for C7: the concrete study declares one experiment and the
component list carries exactly one Experiment-tagged record. -/
theorem c7_witness :
    ((studyParserInit [] "" studyLines0).toOption.map
      (fun x => x.2.2.countP (fun c => c.1 "Type" == some "Experiment"))) = some 1 := by
  cases hres : studyParserInit [] "" studyLines0 with
  | error e =>
    exfalso
    have hOk : (studyParserInit [] "" studyLines0).isOk = true := by rfl
    rw [hres] at hOk
    cases hOk
  | ok x =>
    obtain ⟨hne, nE, nS, hE, hS, hcntE, hcntS, _⟩ :=
      c7_component_counts.1 [] "" studyLines0 x.1 x.2.1 x.2.2 (by rw [hres])
    have hx : x.1 "Study Experiments Number" = some "1" := by
      have hval : (studyParserInit [] "" studyLines0).toOption.map
          (fun y => y.1 "Study Experiments Number") = some (some "1") := by rfl
      rw [hres] at hval
      simpa [Except.toOption] using hval
    have hE1 : getCountInt x.1 "Experiment" = .ok 1 := by
      unfold getCountInt
      rw [show ("Study " ++ "Experiment" ++ "s Number" : String) = "Study Experiments Number"
        from rfl, hx]
      rfl
    have hnE : nE = 1 := by
      rw [hE1] at hE
      cases hE
      rfl
    simp only [Except.toOption, Option.map]
    rw [hcntE, hnE]
    rfl

set_option maxRecDepth 8000 in
/-- C7 counterexample: with `Study Screens Number = "-1"` construction
succeeds, the integer value of the field is `-1`, yet the number of Screen
components is `0` — so the count does not equal the integer value. -/
theorem c7_counterexample :
    ((studyParserInit [] "" studyLines1).toOption.map
      (fun x => x.2.2.countP (fun c => c.1 "Type" == some "Screen"))) = some 0
    ∧ ((studyParserInit [] "" studyLines1).toOption.map
      (fun x => x.1 "Study Screens Number")) = some (some "-1")
    ∧ pyInt "-1" = some (-1)
    ∧ (0 : Int) ≠ -1 := by
  exact ⟨by rfl, by rfl, by rfl, by decide⟩
